import Mathlib

/-!
Verification of the temperature validation, classification, interpolation and
grid-sampling engine of the GeoTIFF Temperature Viewer (src/app.py).

The Python code computes with IEEE double-precision floats.  We embed the
numeric values shallowly as `FVal`: an exact rational payload for finite
floats together with the three non-finite values `nan`, `pinf` (+inf) and
`ninf` (-inf).  Comparisons and the arithmetic actually used by the program
(adding / subtracting / multiplying by a finite constant) follow the IEEE
rules on these values; exact rational arithmetic replaces rounding, which is
the standard idealisation for range-check and aggregation logic.

`DataQualityValidator` (src/app.py lines 77-439) becomes the structure
`Validator` plus the functions named after its methods; the viewer state
that the grid sampler needs (src/app.py `GeoTIFFViewer`) becomes `Viewer`.
-/

set_option autoImplicit false

namespace GeoTIFF

/-- Model of an IEEE double: a finite value carries its exact rational
payload, and the non-finite values NaN, +Inf, -Inf are explicit. -/
inductive FVal where
  | fin : ℚ → FVal
  | nan : FVal
  | pinf : FVal
  | ninf : FVal
deriving DecidableEq, Repr

namespace FVal

/-- IEEE strict less-than: any comparison with NaN is false. -/
def flt : FVal → FVal → Bool
  | fin a, fin b => decide (a < b)
  | fin _, pinf => true
  | ninf, fin _ => true
  | ninf, pinf => true
  | _, _ => false

/-- IEEE less-or-equal: any comparison with NaN is false. -/
def fle : FVal → FVal → Bool
  | fin a, fin b => decide (a ≤ b)
  | fin _, pinf => true
  | ninf, fin _ => true
  | ninf, pinf => true
  | pinf, pinf => true
  | ninf, ninf => true
  | _, _ => false

/-- Model of `np.isnan`. -/
def isnan : FVal → Bool
  | nan => true
  | _ => false

/-- Model of `np.isfinite`. -/
def isfinite : FVal → Bool
  | fin _ => true
  | _ => false

/-- Adding a finite constant (used for the +273.15 / -273.15 conversions and
the metadata offset): infinities and NaN propagate unchanged. -/
def addC : FVal → ℚ → FVal
  | fin a, c => fin (a + c)
  | nan, _ => nan
  | pinf, _ => pinf
  | ninf, _ => ninf

/-- Multiplying by a finite constant (metadata scale).  An infinity times
zero is NaN, otherwise the sign of the constant orients the infinity. -/
def mulC : FVal → ℚ → FVal
  | fin a, c => fin (a * c)
  | nan, _ => nan
  | pinf, c => if 0 < c then pinf else if c < 0 then ninf else nan
  | ninf, c => if 0 < c then ninf else if c < 0 then pinf else nan

/-- Finite payload of a value, if any. -/
def finPart : FVal → Option ℚ
  | fin a => some a
  | _ => none

end FVal

/-- Model of `np.isclose(value, n, atol=0.01)` for a finite reference `n`:
numpy keeps its default relative tolerance `rtol = 1e-5`, so the test is
`|value - n| <= 0.01 + 1e-5 * |n|`; every comparison involving NaN or an
infinite `value` is false. -/
def isclose01 (v : FVal) (n : ℚ) : Bool :=
  match v with
  | .fin a => decide (|a - n| ≤ 1 / 100 + (1 / 100000) * |n|)
  | _ => false

/-- Class constant `NORMAL_MIN` (src/app.py line 90). -/
def NORMAL_MIN : ℚ := 0

/-- Class constant `NORMAL_MAX` (src/app.py line 91). -/
def NORMAL_MAX : ℚ := 50

/-- Class constant `UNUSUAL_MIN` (src/app.py line 94). -/
def UNUSUAL_MIN : ℚ := -60

/-- Class constant `UNUSUAL_MAX` (src/app.py line 95). -/
def UNUSUAL_MAX : ℚ := 70

/-- Class constant `IMPOSSIBLE_MIN` (src/app.py line 98). -/
def IMPOSSIBLE_MIN : ℚ := -100

/-- Class constant `IMPOSSIBLE_MAX` (src/app.py line 99). -/
def IMPOSSIBLE_MAX : ℚ := 100

/-- Class constant `KELVIN_NORMAL_MIN` (src/app.py line 102). -/
def KELVIN_NORMAL_MIN : ℚ := 27315 / 100

/-- Class constant `KELVIN_NORMAL_MAX` (src/app.py line 103). -/
def KELVIN_NORMAL_MAX : ℚ := 32315 / 100

/-- Class constant `KELVIN_UNUSUAL_MIN` (src/app.py line 104). -/
def KELVIN_UNUSUAL_MIN : ℚ := 21315 / 100

/-- Class constant `KELVIN_UNUSUAL_MAX` (src/app.py line 105). -/
def KELVIN_UNUSUAL_MAX : ℚ := 34315 / 100

/-- Instance state of `DataQualityValidator` (src/app.py lines 107-127):
the dataset nodata sentinel and the scale/offset of the validated band. -/
structure Validator where
  nodata : Option ℚ
  scale : ℚ
  offset : ℚ
deriving DecidableEq, Repr

/-- Model of `DataQualityValidator.apply_metadata_transforms`
(src/app.py lines 129-143): `(data * scale) + offset`, skipped when the
metadata is the identity transform. -/
def apply_metadata_transforms (vd : Validator) (v : FVal) : FVal :=
  if vd.scale ≠ 1 ∨ vd.offset ≠ 0 then (v.mulC vd.scale).addC vd.offset else v

/-- The per-value Kelvin/Celsius heuristic the code repeats at every
classification site: a (finite) value above 100 is read as Kelvin and
shifted down by 273.15, otherwise it is read as Celsius. -/
def toCelsiusQ (q : ℚ) : ℚ :=
  if 100 < q then q - 27315 / 100 else q

/-- The same heuristic applied to a possibly non-finite value, as in the
grid-average filter (src/app.py lines 1603-1607). -/
def toCelsiusF (v : FVal) : FVal :=
  if FVal.flt (.fin 100) v then v.addC (-(27315 / 100)) else v

/-- Temperature level returned by `classify_temperature_level`; the Python
strings are "normal", "unusual", "impossible", and `on_image_click` also
uses "estimated". -/
inductive TLevel where
  | normal
  | unusual
  | impossible
  | estimated
deriving DecidableEq, Repr

/-- Model of `DataQualityValidator.classify_temperature_level`
(src/app.py lines 274-298).  The method compares a (finite) float against
the class constants; the `value > 100` test selects the Kelvin bands. -/
def classify_temperature_level (value : ℚ) : TLevel :=
  if 100 < value then
    if KELVIN_NORMAL_MIN ≤ value ∧ value ≤ KELVIN_NORMAL_MAX then .normal
    else if KELVIN_UNUSUAL_MIN ≤ value ∧ value ≤ KELVIN_UNUSUAL_MAX then .unusual
    else .impossible
  else
    if NORMAL_MIN ≤ value ∧ value ≤ NORMAL_MAX then .normal
    else if UNUSUAL_MIN ≤ value ∧ value ≤ UNUSUAL_MAX then .unusual
    else .impossible

/-- The diagnostic messages produced by `validate_single_value`
(src/app.py lines 300-339), one constructor per Python format string:
`nodataMeta` is "NoData value (from metadata)", `invalidNaN` is
"Invalid (NaN or Inf)", `normalRange` is "Normal range", `extremeCold v` is
"Extreme cold (v°C - Arctic/Antarctic)", `extremeHot v` is
"Extreme hot (v°C - Desert surface)", and `impossibleVal v` is
"Impossible value (v) - likely NoData". -/
inductive VMsg where
  | nodataMeta
  | invalidNaN
  | normalRange
  | extremeCold : FVal → VMsg
  | extremeHot : FVal → VMsg
  | impossibleVal : FVal → VMsg
deriving DecidableEq, Repr

/-- The recurring sentinel test
`self.nodata_value is not None and np.isclose(value, self.nodata_value, atol=0.01)`. -/
def nodataClose (vd : Validator) (value : FVal) : Bool :=
  match vd.nodata with
  | some n => isclose01 value n
  | none => false

/-- Model of `DataQualityValidator.validate_single_value`
(src/app.py lines 300-339), returning `(is_usable, message, level)`.  The
`not np.isfinite(value)` rejection of line 320 is the non-finite match
arm. -/
def validate_single_value (vd : Validator) (value : FVal) : Bool × VMsg × TLevel :=
  if nodataClose vd value then (false, .nodataMeta, .impossible)
  else
    match value with
    | .fin q =>
      match classify_temperature_level q with
      | .normal => (true, .normalRange, .normal)
      | .unusual =>
        if q < 0 then (true, .extremeCold (.fin q), .unusual)
        else (true, .extremeHot (.fin q), .unusual)
      | _ => (false, .impossibleVal (.fin q), .impossible)
    | _ => (false, .invalidNaN, .impossible)

/-- Minimum of a list of rationals with a default for the empty list,
modelling `np.nanmin(data[mask]) if np.any(mask) else 0`. -/
def minQD (l : List ℚ) (d : ℚ) : ℚ :=
  match l with
  | [] => d
  | h :: t => t.foldl min h

/-- Maximum of a list of rationals with a default for the empty list. -/
def maxQD (l : List ℚ) (d : ℚ) : ℚ :=
  match l with
  | [] => d
  | h :: t => t.foldl max h

/-- Arithmetic mean of a list of rationals (`np.mean`); only ever used on
nonempty lists. -/
def meanQ (l : List ℚ) : ℚ :=
  l.sum / l.length

/-- Model of `DataQualityValidator.get_valid_data` via `create_valid_mask`
(src/app.py lines 145-198).  A pixel survives the first two mask stages iff
it is not close to the nodata sentinel and is finite; the survivors (exact
rationals) are then filtered by the wide sanity band chosen from their
minimum (`data_min > 100` selects the Kelvin band [150, 400], otherwise the
Celsius band [IMPOSSIBLE_MIN, IMPOSSIBLE_MAX]).  The unused `data_max` of
line 176 is not modelled. -/
def get_valid_data (vd : Validator) (data : List FVal) : List ℚ :=
  let m1 := data.filterMap (fun v =>
    if nodataClose vd v then none
    else v.finPart)
  let data_min := minQD m1 0
  if 100 < data_min then m1.filter (fun q => decide (150 ≤ q ∧ q ≤ 400))
  else m1.filter (fun q => decide (IMPOSSIBLE_MIN ≤ q ∧ q ≤ IMPOSSIBLE_MAX))

/-- The class attributes actually defined on `DataQualityValidator`
(src/app.py lines 88-105), as a lookup table: `detect_temperature_unit`
reads four further attributes (`KELVIN_MIN`, `KELVIN_MAX`, `CELSIUS_MIN`,
`CELSIUS_MAX`) that appear nowhere in the class body or instance
initialiser, so looking them up yields `none` (Python: `AttributeError`). -/
def validatorClassAttr (name : String) : Option ℚ :=
  if name = "NORMAL_MIN" then some NORMAL_MIN
  else if name = "NORMAL_MAX" then some NORMAL_MAX
  else if name = "UNUSUAL_MIN" then some UNUSUAL_MIN
  else if name = "UNUSUAL_MAX" then some UNUSUAL_MAX
  else if name = "IMPOSSIBLE_MIN" then some IMPOSSIBLE_MIN
  else if name = "IMPOSSIBLE_MAX" then some IMPOSSIBLE_MAX
  else if name = "KELVIN_NORMAL_MIN" then some KELVIN_NORMAL_MIN
  else if name = "KELVIN_NORMAL_MAX" then some KELVIN_NORMAL_MAX
  else if name = "KELVIN_UNUSUAL_MIN" then some KELVIN_UNUSUAL_MIN
  else if name = "KELVIN_UNUSUAL_MAX" then some KELVIN_UNUSUAL_MAX
  else none

/-- Model of `DataQualityValidator.detect_temperature_unit`
(src/app.py lines 239-272).  The Python body reads `self.KELVIN_MIN` as
soon as the valid data is nonempty; attribute lookups are modelled through
`validatorClassAttr`, and a missing attribute surfaces as `Except.error`
(the raised `AttributeError`). -/
def detect_temperature_unit (vd : Validator) (data : List FVal) : Except String String :=
  let valid_data := get_valid_data vd data
  if valid_data.length = 0 then .ok "Unknown"
  else
    let data_min := minQD valid_data 0
    let data_max := maxQD valid_data 0
    let data_mean := meanQ valid_data
    match validatorClassAttr "KELVIN_MIN", validatorClassAttr "KELVIN_MAX" with
    | some kmin, some kmax =>
      if kmin ≤ data_min ∧ data_max ≤ kmax ∧ 200 < data_mean then .ok "Kelvin"
      else
        match validatorClassAttr "CELSIUS_MIN", validatorClassAttr "CELSIUS_MAX" with
        | some cmin, some cmax =>
          if cmin ≤ data_min ∧ data_max ≤ cmax ∧ data_mean < 100 then .ok "Celsius"
          else if 100 < data_min then .ok "Kelvin (assumed)"
          else .ok "Celsius (assumed)"
        | _, _ => .error "AttributeError: no attribute CELSIUS_MIN"
    | _, _ => .error "AttributeError: no attribute KELVIN_MIN"

/-- A 2-D band of samples as handed to `interpolate_from_neighbors`
(the transformed `data` array): its shape and a total pixel function. -/
structure Band where
  height : ℕ
  width : ℕ
  pix : ℕ → ℕ → FVal

/-- Offsets `(dr, dc)` scanned at a given radius: the full square
`range(-radius, radius + 1) × range(-radius, radius + 1)` in row-major
order (src/app.py lines 373-374); the centre is skipped at the use site. -/
def ringOffsets (radius : ℕ) : List (ℤ × ℤ) :=
  (List.range (2 * radius + 1)).flatMap (fun i =>
    (List.range (2 * radius + 1)).map (fun j => ((i : ℤ) - radius, (j : ℤ) - radius)))

/-- The surviving neighbour candidates of one radius pass of
`interpolate_from_neighbors` (src/app.py lines 369-412): each in-bounds,
non-centre neighbour that is not close to the nodata sentinel, is finite,
and whose Celsius conversion lies in the Normal band, paired with its
squared Euclidean pixel distance. -/
def interpCandidates (vd : Validator) (b : Band) (row col radius : ℕ) : List (ℚ × ℕ) :=
  (ringOffsets radius).filterMap (fun off =>
    if off.1 = (0 : ℤ) ∧ off.2 = (0 : ℤ) then none
    else
      let r := (row : ℤ) + off.1
      let c := (col : ℤ) + off.2
      if 0 ≤ r ∧ r < b.height ∧ 0 ≤ c ∧ c < b.width then
        let value := b.pix r.toNat c.toNat
        if nodataClose vd value then none
        else
          match value with
          | .fin q =>
            if toCelsiusQ q < NORMAL_MIN ∨ NORMAL_MAX < toCelsiusQ q then none
            else some (q, (off.1 ^ 2 + off.2 ^ 2).toNat)
          | _ => none
      else none)

/-- Inverse-distance-weighted mean of candidates `(value, squared distance)`
(src/app.py lines 416-420): weights `1 / sqrt(d2)` normalised to sum 1, so
the result is `(Σ v/√d2) / (Σ 1/√d2)`. -/
noncomputable def idwValue (cands : List (ℚ × ℕ)) : ℝ :=
  ((cands.map (fun p => (p.1 : ℝ) / Real.sqrt (p.2 : ℝ))).sum) /
  ((cands.map (fun p => 1 / Real.sqrt (p.2 : ℝ))).sum)

/-- Result of `interpolate_from_neighbors`: `success` carries
`(interpolated_value, valid_neighbors_found, search_radius_used)`, and
`failure` is the `(False, np.nan, 0, max_radius)` return. -/
inductive InterpResult where
  | success (value : ℝ) (neighbors radius : ℕ)
  | failure

/-- Radius loop of `interpolate_from_neighbors` (src/app.py lines 368-439)
over an explicit list of radii: a radius is accepted when at least 3
candidates survive and the weighted mean passes the final Normal-range
sanity check after Celsius conversion; otherwise the next radius is tried. -/
noncomputable def interpGo (vd : Validator) (b : Band) (row col : ℕ) :
    List ℕ → InterpResult
  | [] => .failure
  | radius :: rest =>
    let cands := interpCandidates vd b row col radius
    if 3 ≤ cands.length then
      let interpolated := idwValue cands
      let result_celsius :=
        if (100 : ℝ) < interpolated then interpolated - 27315 / 100 else interpolated
      if result_celsius < ((NORMAL_MIN : ℚ) : ℝ) ∨ ((NORMAL_MAX : ℚ) : ℝ) < result_celsius then
        interpGo vd b row col rest
      else .success interpolated cands.length radius
    else interpGo vd b row col rest

/-- Model of `DataQualityValidator.interpolate_from_neighbors`
(src/app.py lines 341-439): radii `1, 2, ..., max_radius` in order. -/
noncomputable def interpolate_from_neighbors (vd : Validator) (b : Band)
    (row col maxRadius : ℕ) : InterpResult :=
  interpGo vd b row col (List.range' 1 maxRadius)

/-- Decimal digit characters of a positive natural number, most significant
first, with an explicit fuel argument for structural recursion. -/
def pyStrAux : ℕ → ℕ → List Char
  | 0, _ => []
  | _ + 1, 0 => []
  | fuel + 1, n + 1 => pyStrAux fuel ((n + 1) / 10) ++ [Char.ofNat (48 + (n + 1) % 10)]

/-- Decimal rendering of a natural number, modelling the Python
`str(int)` used to build the cache key `f"{band}_{row}_{col}"`. -/
def pyStr (n : ℕ) : List Char :=
  if n = 0 then ['0'] else pyStrAux n n

/-- Model of the grid-average cache key built at src/app.py line 1580:
`f"{self.current_band}_{grid_row}_{grid_col}"`. -/
def cacheKey (band grow gcol : ℕ) : String :=
  ⟨pyStr band ++ '_' :: (pyStr grow ++ '_' :: pyStr gcol)⟩

/-- Dictionary lookup `self.grid_averages[cache_key]` guarded by
`cache_key in self.grid_averages`, on the cache modelled as an association
list. -/
def cacheFind (key : String) : List (String × ℚ) → Option ℚ
  | [] => none
  | (k, q) :: t => if k = key then some q else cacheFind key t

/-- Decoder of the decimal digit strings produced by `pyStr`, used to show
the cache key encodes its three components injectively. -/
def fromDigitChars (l : List Char) : ℕ :=
  l.foldl (fun acc ch => acc * 10 + (ch.toNat - 48)) 0

/-- The `GeoTIFFViewer` state the sampling engine reads and writes
(src/app.py): the loaded raster (band-major pixel function with its
dimensions, `ndim2` marking a single 2-D band), the active band (1-indexed),
the adaptive grid geometry, the grid-average cache dictionary, the active
validator, the sampling-mode flags, the preview-to-raster scales, the last
clicked preview point, dataset presence, and the dataset metadata used to
build validators (`nodata`, `scales`, `offsets`). -/
structure Viewer where
  height : ℕ
  width : ℕ
  raster : ℕ → ℕ → ℕ → FVal
  ndim2 : Bool
  band_count : ℕ
  current_band : ℕ
  grid_size : ℕ
  grid_rows : ℕ
  grid_cols : ℕ
  grid_averages : List (String × ℚ)
  validator : Option Validator
  grid_enabled : Bool
  neighborhood_averaging : Bool
  preview_scale_x : ℚ
  preview_scale_y : ℚ
  last_click : Option (ℕ × ℕ)
  hasData : Bool
  nodataMeta : Option ℚ
  scales : ℕ → ℚ
  offsets : ℕ → ℚ

/-- Pixel access on the current band: `self.raster_data[y, x]` for a 2-D
raster, `self.raster_data[self.current_band - 1, y, x]` for a 3-D one. -/
def bandPixel (s : Viewer) (r c : ℕ) : FVal :=
  if s.ndim2 then s.raster 0 r c else s.raster (s.current_band - 1) r c

/-- The pixels of one grid cell in row-major order (src/app.py lines
1584-1594): the cell rectangle is clipped to the image. -/
def cellPixels (s : Viewer) (grow gcol : ℕ) : List FVal :=
  let cell_x_start := gcol * s.grid_size
  let cell_x_end := min (cell_x_start + s.grid_size) s.width
  let cell_y_start := grow * s.grid_size
  let cell_y_end := min (cell_y_start + s.grid_size) s.height
  (List.range (cell_y_end - cell_y_start)).flatMap (fun dy =>
    (List.range (cell_x_end - cell_x_start)).map (fun dx =>
      bandPixel s (cell_y_start + dy) (cell_x_start + dx)))

/-- The Normal-range filter of `_get_grid_average` (src/app.py lines
1600-1611) applied to the non-NaN cell values: keep a value whose Celsius
conversion lies in `[NORMAL_MIN, NORMAL_MAX]`.  Values passing the check
are necessarily finite, so collecting their rational payloads loses
nothing. -/
def gridNormalData (valid_data : List FVal) : List ℚ :=
  valid_data.filterMap (fun v =>
    if FVal.fle (.fin NORMAL_MIN) (toCelsiusF v) && FVal.fle (toCelsiusF v) (.fin NORMAL_MAX)
    then v.finPart else none)

/-- The cache-miss computation of `_get_grid_average` (src/app.py lines
1584-1620): drop NaN pixels, keep Normal-range values, return their mean,
or NaN when no pixel qualifies or no validator is active. -/
def gridAverageScan (s : Viewer) (grow gcol : ℕ) : FVal :=
  let valid_data := (cellPixels s grow gcol).filter (fun v => !v.isnan)
  if 0 < valid_data.length ∧ s.validator.isSome then
    let normal_data := gridNormalData valid_data
    if 0 < normal_data.length then .fin (meanQ normal_data) else .nan
  else .nan

/-- Model of `GeoTIFFViewer._get_grid_average` (src/app.py lines
1567-1620) with the cache dictionary made explicit: the returned triple is
(value, updated viewer, whether the cell was scanned).  A cache hit returns
the stored value; a miss scans the cell and caches the average unless it is
NaN. -/
def getGridAverage (s : Viewer) (grow gcol : ℕ) : FVal × Viewer × Bool :=
  let key := cacheKey s.current_band grow gcol
  match cacheFind key s.grid_averages with
  | some q => (.fin q, s, false)
  | none =>
    match gridAverageScan s grow gcol with
    | .fin q => (.fin q, { s with grid_averages := (key, q) :: s.grid_averages }, true)
    | _ => (.nan, s, true)

/-- The 3x3 neighbourhood offsets of `_get_neighborhood_average`
(src/app.py lines 1652-1656). -/
def neighborhoodOffsets : List (ℤ × ℤ) :=
  [(-1, -1), (-1, 0), (-1, 1), (0, -1), (0, 0), (0, 1), (1, -1), (1, 0), (1, 1)]

/-- Accumulator of the neighbourhood loop: the threaded viewer (its cache
grows), the collected per-cell averages (`grid_averages_list`), the pooled
raw non-NaN pixels (`all_valid_data`), and `grids_used`. -/
structure NbhdAcc where
  st : Viewer
  avgs : List ℚ
  pooled : List FVal
  used : ℕ

/-- One neighbour visit of `_get_neighborhood_average` (src/app.py lines
1662-1687).  `getGridAverage` only ever returns a finite value or NaN, so
the `not np.isnan(grid_avg)` test is the `.fin` match. -/
def nbhdStep (grow gcol : ℕ) (acc : NbhdAcc) (off : ℤ × ℤ) : NbhdAcc :=
  let nr := (grow : ℤ) + off.1
  let nc := (gcol : ℤ) + off.2
  if 0 ≤ nr ∧ nr < acc.st.grid_rows ∧ 0 ≤ nc ∧ nc < acc.st.grid_cols then
    let res := getGridAverage acc.st nr.toNat nc.toNat
    match res.1 with
    | .fin q =>
      let valid_pixels := (cellPixels res.2.1 nr.toNat nc.toNat).filter (fun v => !v.isnan)
      { st := res.2.1, avgs := acc.avgs ++ [q], pooled := acc.pooled ++ valid_pixels,
        used := acc.used + 1 }
    | _ => { acc with st := res.2.1 }
  else acc

/-- Model of `GeoTIFFViewer._get_neighborhood_average` (src/app.py lines
1622-1703): visit the 9 offsets in order, threading the cache.  The
components of the returned Python tuple are read off the accumulator by
`nbhdAvg`, `nbhdTotalPixels`, `nbhdMin`, `nbhdMax`, `nbhdStd` and
`NbhdAcc.used`. -/
def getNeighborhoodAverage (s : Viewer) (grow gcol : ℕ) : NbhdAcc :=
  neighborhoodOffsets.foldl (nbhdStep grow gcol) ⟨s, [], [], 0⟩

/-- First returned component (`neighborhood_avg`): the mean of the per-cell
means when any cell qualified, NaN otherwise (src/app.py lines 1689-1703). -/
def nbhdAvg (a : NbhdAcc) : FVal :=
  if 0 < a.avgs.length then .fin (meanQ a.avgs) else .nan

/-- Second returned component (`total_pixels`): the pooled pixel count
(zero in the no-data branch, where the pooled list is empty). -/
def nbhdTotalPixels (a : NbhdAcc) : ℕ :=
  a.pooled.length

/-- Minimum of a list of floats none of which is NaN (`np.min`); NaN on the
empty list, matching the no-data branch of the source. -/
def npMinF (l : List FVal) : FVal :=
  match l with
  | [] => .nan
  | h :: t => t.foldl (fun x y => if FVal.flt y x then y else x) h

/-- Maximum of a list of floats none of which is NaN (`np.max`); NaN on the
empty list, matching the no-data branch of the source. -/
def npMaxF (l : List FVal) : FVal :=
  match l with
  | [] => .nan
  | h :: t => t.foldl (fun x y => if FVal.flt x y then y else x) h

/-- Third returned component (`min_val`). -/
def nbhdMin (a : NbhdAcc) : FVal :=
  npMinF a.pooled

/-- Fourth returned component (`max_val`). -/
def nbhdMax (a : NbhdAcc) : FVal :=
  npMaxF a.pooled

/-- Population variance of a list of rationals. -/
def varQ (l : List ℚ) : ℚ :=
  meanQ (l.map (fun q => (q - meanQ l) ^ 2))

/-- Result of `np.std`: a real number for a nonempty all-finite input and
NaN otherwise (an infinite entry makes the float computation collapse to
NaN through `inf - inf`). -/
inductive StdVal where
  | nan
  | val : ℝ → StdVal

/-- Model of `np.std` on a NaN-free float list. -/
noncomputable def npStd (l : List FVal) : StdVal :=
  if l ≠ [] ∧ (∀ v ∈ l, v.isfinite = true) then
    .val (Real.sqrt ((varQ (l.filterMap FVal.finPart) : ℚ) : ℝ))
  else .nan

/-- Fifth returned component (`std_val`). -/
noncomputable def nbhdStd (a : NbhdAcc) : StdVal :=
  npStd a.pooled

/-- IEEE addition, for `np.mean` over values that may include infinities. -/
def FVal.addF : FVal → FVal → FVal
  | .nan, _ => .nan
  | _, .nan => .nan
  | .pinf, .ninf => .nan
  | .ninf, .pinf => .nan
  | .pinf, _ => .pinf
  | _, .pinf => .pinf
  | .ninf, _ => .ninf
  | _, .ninf => .ninf
  | .fin a, .fin b => .fin (a + b)

/-- Division of a float by a positive count, the final step of `np.mean`. -/
def FVal.divN : FVal → ℕ → FVal
  | .fin a, n => .fin (a / n)
  | .nan, _ => .nan
  | .pinf, _ => .pinf
  | .ninf, _ => .ninf

/-- Model of `np.mean` over a float list that may contain infinities
(the single-grid click path averages all non-NaN cell pixels). -/
def meanF (l : List FVal) : FVal :=
  (l.foldl FVal.addF (.fin 0)).divN l.length

/-- Python `int()` applied to a nonnegative product of floats: truncation
towards zero, which is the floor for the nonnegative arguments that arise
here. -/
def intFloorQ (q : ℚ) : ℕ :=
  (⌊q⌋).toNat

/-- The value `on_image_click` submits to validation, with the viewer state
after the sampling (src/app.py lines 1891-1961): `none` when no data is
loaded or the click maps outside the raster.  The three sampling paths are
the 3x3 neighbourhood average, the single-cell mean of all non-NaN pixels,
and the single raw pixel. -/
def sampledValue (s : Viewer) (px py : ℕ) : Option (FVal × Viewer) :=
  if s.hasData then
    let rx := intFloorQ ((px : ℚ) * s.preview_scale_x)
    let ry := intFloorQ ((py : ℚ) * s.preview_scale_y)
    if rx < s.width ∧ ry < s.height then
      if s.grid_enabled ∧ 0 < s.grid_size then
        let gcol := rx / s.grid_size
        let grow := ry / s.grid_size
        if s.neighborhood_averaging then
          let acc := getNeighborhoodAverage s grow gcol
          some (nbhdAvg acc, acc.st)
        else
          let valid_cell := (cellPixels s grow gcol).filter (fun v => !v.isnan)
          if 0 < valid_cell.length then some (meanF valid_cell, s)
          else some (.nan, s)
      else some (bandPixel s ry rx, s)
    else none
  else none

/-- The value on which `validate_single_value` is invoked at src/app.py
line 1968: the sampled value, provided a validator is active. -/
def clickClassifiedValue (s : Viewer) (px py : ℕ) : Option FVal :=
  match sampledValue s px py with
  | some (v, _) => if s.validator.isSome then some v else none
  | none => none

/-- State effect of `on_image_click` on the viewer (src/app.py lines
1891-1961): record the clicked preview point and keep the cache updates
made while sampling.  The interpolation fallback does not touch the
cache. -/
def clickState (s : Viewer) (px py : ℕ) : Viewer :=
  if s.hasData then
    let s0 := { s with last_click := some (px, py) }
    match sampledValue s0 px py with
    | some (_, s1) => s1
    | none => s0
  else s

/-- Ceiling division `np.ceil(a / b)` for natural `a` and positive `b`. -/
def ceilDivNat (a b : ℕ) : ℕ :=
  (a + b - 1) / b

/-- Model of `GeoTIFFViewer._calculate_grid_system` (src/app.py lines
1538-1565): pick the adaptive cell size from the larger image dimension,
derive the grid shape, and clear the grid-average cache. -/
def calculateGridSystem (s : Viewer) (width height : ℕ) : Viewer :=
  let max_dim := max width height
  let gsize : ℕ :=
    if max_dim < 1000 then 20
    else if max_dim < 5000 then 40
    else if max_dim < 10000 then 80
    else 150
  { s with grid_size := gsize,
           grid_cols := ceilDivNat width gsize,
           grid_rows := ceilDivNat height gsize,
           grid_averages := [] }

/-- Construction `DataQualityValidator(self.dataset, band)` (src/app.py
lines 107-121): nodata from the dataset, scale and offset of the given
1-indexed band. -/
def mkValidator (s : Viewer) (band : ℕ) : Validator :=
  ⟨s.nodataMeta, s.scales (band - 1), s.offsets (band - 1)⟩

/-- Model of `GeoTIFFViewer.on_band_changed` (src/app.py lines 1507-1536):
a negative index is ignored; otherwise the selected band becomes current,
a fresh validator is built (when a dataset is open), the grid-average
cache is cleared in bulk, and a previously clicked location is re-sampled
through `on_image_click`. -/
def onBandChanged (s : Viewer) (index : ℤ) (itemBand : ℕ) : Viewer :=
  if index < 0 then s
  else
    let s1 := { s with current_band := itemBand,
                       validator := if s.hasData then some (mkValidator s itemBand)
                                    else s.validator,
                       grid_averages := [] }
    match s.last_click with
    | some (px, py) => clickState s1 px py
    | none => s1

/-- All pixels of one 0-indexed band of the stack, row-major, as scanned by
`select_best_temperature_band`. -/
def bandAllPixels (s : Viewer) (bandIdx : ℕ) : List FVal :=
  (List.range s.height).flatMap (fun r =>
    (List.range s.width).map (fun c => s.raster bandIdx r c))

/-- Band data of `select_best_temperature_band` after the metadata
transform of src/app.py lines 1323-1325. -/
def bandTransformed (s : Viewer) (bandIdx : ℕ) : List FVal :=
  (bandAllPixels s bandIdx).map (fun v =>
    match s.validator with
    | some vd => apply_metadata_transforms vd v
    | none => v)

/-- The finite values of a transformed band (src/app.py lines 1327-1329). -/
def bandValidVals (s : Viewer) (bandIdx : ℕ) : List ℚ :=
  ((bandTransformed s bandIdx).filter (fun v => v.isfinite)).filterMap FVal.finPart

/-- Score of one band (src/app.py lines 1335-1350): the share of finite
values whose Celsius conversion is Normal, weighted 0.7, plus the share of
finite pixels, weighted 0.3. -/
def bandScore (s : Viewer) (bandIdx : ℕ) : ℚ :=
  let valid_data := bandValidVals s bandIdx
  let normal_count := (valid_data.filter (fun q =>
    decide (s.validator.isSome ∧ NORMAL_MIN ≤ toCelsiusQ q ∧ toCelsiusQ q ≤ NORMAL_MAX))).length
  let normal_percentage := ((normal_count : ℚ) / (valid_data.length : ℚ)) * 100
  let valid_percentage := ((valid_data.length : ℚ) / ((bandTransformed s bandIdx).length : ℚ)) * 100
  normal_percentage * (7 / 10) + valid_percentage * (3 / 10)

/-- One iteration of the band loop (src/app.py lines 1316-1361): a band
with no finite values is skipped, and a strictly larger score replaces the
running best `(best_band, best_score)`. -/
def selectStep (s : Viewer) (best : ℕ × ℚ) (bandIdx : ℕ) : ℕ × ℚ :=
  if (bandValidVals s bandIdx).length = 0 then best
  else if best.2 < bandScore s bandIdx then (bandIdx + 1, bandScore s bandIdx)
  else best

/-- Model of `GeoTIFFViewer.select_best_temperature_band` (src/app.py
lines 1297-1364): a 2-D raster is band 1; otherwise fold the band loop
from `(best_band, best_score) = (1, -1)` and return the 1-indexed best. -/
def select_best_temperature_band (s : Viewer) : ℕ :=
  if s.ndim2 then 1
  else ((List.range s.band_count).foldl (selectStep s) (1, -1)).1

/-- The grid cells reached by a list of offsets around `(grow, gcol)` that
lie inside the grid bounds, as 0-indexed (row, col) pairs. -/
def inBoundsOffs (s : Viewer) (grow gcol : ℕ) (offs : List (ℤ × ℤ)) : List (ℕ × ℕ) :=
  (offs.filter (fun off =>
    decide (0 ≤ (grow : ℤ) + off.1 ∧ (grow : ℤ) + off.1 < s.grid_rows ∧
            0 ≤ (gcol : ℤ) + off.2 ∧ (gcol : ℤ) + off.2 < s.grid_cols))).map
    (fun off => (((grow : ℤ) + off.1).toNat, ((gcol : ℤ) + off.2).toNat))

/-- Among the in-bounds cells, those whose (recomputed) grid average is not
NaN: the cells a neighbourhood average actually uses. -/
def usedCellList (s : Viewer) (grow gcol : ℕ) (offs : List (ℤ × ℤ)) : List (ℕ × ℕ) :=
  (inBoundsOffs s grow gcol offs).filter
    (fun p => !(gridAverageScan s p.1 p.2).isnan)

/-- The per-cell grid averages of the used cells (all finite). -/
def usedAvgList (s : Viewer) (grow gcol : ℕ) (offs : List (ℤ × ℤ)) : List ℚ :=
  (usedCellList s grow gcol offs).filterMap
    (fun p => (gridAverageScan s p.1 p.2).finPart)

/-- The pooled raw non-NaN pixels of the used cells. -/
def pooledPixelList (s : Viewer) (grow gcol : ℕ) (offs : List (ℤ × ℤ)) : List FVal :=
  (usedCellList s grow gcol offs).flatMap
    (fun p => (cellPixels s p.1 p.2).filter (fun v => !v.isnan))

/-- Well-formedness of the grid-average cache: every entry was stored by
`_get_grid_average` for the current band, under the key of the cell whose
(finite) recomputed average it holds.  This is the reachability invariant
of the cache: it holds for the empty cache and is preserved by every cache
operation of the viewer. -/
def CacheWF (s : Viewer) : Prop :=
  ∀ k q, (k, q) ∈ s.grid_averages →
    ∃ grow gcol, k = cacheKey s.current_band grow gcol ∧
      FVal.fin q = gridAverageScan s grow gcol

/-- The viewer `t` agrees with `s` on every field except possibly the
grid-average cache. -/
def SameExceptCache (s t : Viewer) : Prop :=
  t = { s with grid_averages := t.grid_averages }

/-- Claim-side predicate: a pixel value qualifies for a grid-cell average
when it is finite and its Celsius equivalent lies within [0, 50]. -/
def pixelQualifies (v : FVal) : Prop :=
  ∃ q, v = .fin q ∧ 0 ≤ toCelsiusQ q ∧ toCelsiusQ q ≤ 50

/-- Claim-side pooled statistics source for C7, following the spec's words:
the raw qualifying pixels (finite, Celsius equivalent within [0, 50]) of
the cells actually used. -/
def claimPooledQualifying (s : Viewer) (grow gcol : ℕ) (offs : List (ℤ × ℤ)) : List FVal :=
  (usedCellList s grow gcol offs).flatMap
    (fun p => (cellPixels s p.1 p.2).filter (fun v =>
      v.isfinite && FVal.fle (.fin 0) (toCelsiusF v) && FVal.fle (toCelsiusF v) (.fin 50)))

/-- Claim-side nodata test for C6, following the claim's words: absolute
tolerance exactly 0.01, with no relative component. -/
def isclose01abs (v : FVal) (n : ℚ) : Bool :=
  match v with
  | .fin a => decide (|a - n| ≤ 1 / 100)
  | _ => false

/-- Claim-side candidate set for C6, following the claim's words: the
in-bounds neighbours at the given radius that are not nodata within
absolute tolerance 0.01, are finite, and whose Celsius equivalent lies
within [0, 50]. -/
def claimCandidates (vd : Validator) (b : Band) (row col radius : ℕ) : List (ℚ × ℕ) :=
  (ringOffsets radius).filterMap (fun off =>
    if off.1 = (0 : ℤ) ∧ off.2 = (0 : ℤ) then none
    else
      let r := (row : ℤ) + off.1
      let c := (col : ℤ) + off.2
      if 0 ≤ r ∧ r < b.height ∧ 0 ≤ c ∧ c < b.width then
        let value := b.pix r.toNat c.toNat
        if (match vd.nodata with | some n => isclose01abs value n | none => false) then none
        else
          match value with
          | .fin q =>
            if toCelsiusQ q < NORMAL_MIN ∨ NORMAL_MAX < toCelsiusQ q then none
            else some (q, (off.1 ^ 2 + off.2 ^ 2).toNat)
          | _ => none
      else none)

/-- A small single-band viewer used to instantiate the claims: a constant
pixel function, one 20-pixel grid cell, an active validator, and the
dataset metadata matching the validator. -/
def testViewer (pix : ℕ → ℕ → FVal) (h w : ℕ) (vd : Validator) : Viewer :=
  { height := h, width := w, raster := fun _ r c => pix r c, ndim2 := true, band_count := 1,
    current_band := 1, grid_size := 20, grid_rows := 1, grid_cols := 1, grid_averages := [],
    validator := some vd, grid_enabled := false, neighborhood_averaging := false,
    preview_scale_x := 1, preview_scale_y := 1, last_click := none, hasData := true,
    nodataMeta := vd.nodata, scales := fun _ => vd.scale, offsets := fun _ => vd.offset }

/-- C1 fixture: a 1x1 raster holding raw value 30 whose band metadata is
scale 2, offset 0. -/
def c1Viewer : Viewer :=
  testViewer (fun _ _ => .fin 30) 1 1 ⟨none, 2, 0⟩

/-- The C1 fixture with single-cell grid sampling enabled. -/
def c1GridViewer : Viewer :=
  { c1Viewer with grid_enabled := true }

/-- The C1 fixture with 3x3 neighbourhood sampling enabled. -/
def c1NbhdViewer : Viewer :=
  { c1Viewer with grid_enabled := true, neighborhood_averaging := true }

/-- C6 fixture: a 3x3 band whose centre neighbourhood holds three 30s at
the diagonal corners, a 20.0101 at the remaining corner, and NaN
elsewhere. -/
def c6Pix : ℕ → ℕ → FVal := fun r c =>
  if r = 0 ∧ c = 0 then .fin (200101 / 10000)
  else if r = 0 ∧ c = 2 then .fin 30
  else if r = 2 ∧ c = 0 then .fin 30
  else if r = 2 ∧ c = 2 then .fin 30
  else .nan

/-- The C6 band. -/
def c6Band : Band :=
  ⟨3, 3, c6Pix⟩

/-- The C6 validator: nodata sentinel 20. -/
def c6Validator : Validator :=
  ⟨some 20, 1, 0⟩

/-- C7 fixture: a 1x2 raster with one qualifying pixel (20) and one finite
non-qualifying sentinel pixel (-9999) in the same, single grid cell. -/
def c7Viewer : Viewer :=
  testViewer (fun _ c => if c = 0 then .fin 20 else .fin (-9999)) 1 2 ⟨none, 1, 0⟩

/-- C8 fixture: a 2x2 raster forming one grid cell with qualifying pixels
10 and 20, a NaN, and a non-qualifying -9999. -/
def c8Viewer : Viewer :=
  testViewer (fun r c =>
    if r = 0 then (if c = 0 then .fin 10 else .fin 20)
    else (if c = 0 then .nan else .fin (-9999))) 2 2 ⟨none, 1, 0⟩

/-- C8 no-qualifying fixture: a 1x1 raster holding only the sentinel. -/
def c8BadViewer : Viewer :=
  testViewer (fun _ _ => .fin (-9999)) 1 1 ⟨none, 1, 0⟩

/-- C9 fixture: a 2-band stack on one pixel; band 1 (0-indexed 0) holds the
NoData sentinel -9999 everywhere, band 2 holds 15, inside [10, 20]. -/
def c9Viewer : Viewer :=
  { testViewer (fun _ _ => .fin 0) 1 1 ⟨some (-9999), 1, 0⟩ with
    ndim2 := false, band_count := 2,
    raster := fun b _ _ => if b = 0 then .fin (-9999) else .fin 15 }

/-- C10 fixture: a 1x1 viewer with an empty cache and no stored click. -/
def c10Viewer : Viewer :=
  testViewer (fun _ _ => .fin 30) 1 1 ⟨none, 1, 0⟩

/-- Celsius equivalent of a real value under the per-value unit heuristic,
as computed by the final sanity check of the interpolation
(src/app.py lines 422-427). -/
noncomputable def celsiusEqR (x : ℝ) : ℝ :=
  if 100 < x then x - 27315 / 100 else x

/-- A neighbourhood visit outside the grid bounds leaves the accumulator
unchanged. -/
theorem nbhdStep_oob (grow gcol : ℕ) (acc : NbhdAcc) (off : ℤ × ℤ)
    (h : ¬(0 ≤ (grow : ℤ) + off.1 ∧ (grow : ℤ) + off.1 < acc.st.grid_rows ∧
          0 ≤ (gcol : ℤ) + off.2 ∧ (gcol : ℤ) + off.2 < acc.st.grid_cols)) :
    nbhdStep grow gcol acc off = acc := by
  simp only [nbhdStep, if_neg h]

/-- Every character emitted by `pyStrAux` is a decimal digit, hence not the
underscore separator. -/
theorem pyStrAux_no_underscore : ∀ fuel n, ('_' : Char) ∉ pyStrAux fuel n := by
  intro fuel
  induction fuel with
  | zero => intro n; simp [pyStrAux]
  | succ f ih =>
    intro n
    match n with
    | 0 => simp [pyStrAux]
    | m + 1 =>
      simp only [pyStrAux, List.mem_append, List.mem_singleton]
      rintro (h | h)
      · exact ih _ h
      · have hd : (m + 1) % 10 < 10 := Nat.mod_lt _ (by norm_num)
        revert h
        generalize (m + 1) % 10 = d at hd
        interval_cases d <;> decide

/-- Underscores never occur in `pyStr n`. -/
theorem pyStr_no_underscore (n : ℕ) : ('_' : Char) ∉ pyStr n := by
  unfold pyStr
  split_ifs
  · decide
  · exact pyStrAux_no_underscore n n

/-- Decoding a digit character produced by `pyStrAux`. -/
theorem digitChar_decode {d : ℕ} (hd : d < 10) : (Char.ofNat (48 + d)).toNat = 48 + d := by
  interval_cases d <;> decide

/-- The decimal decoder inverts `pyStrAux` on sufficient fuel. -/
theorem fromDigitChars_pyStrAux : ∀ fuel n, n ≤ fuel →
    fromDigitChars (pyStrAux fuel n) = n := by
  intro fuel
  induction fuel with
  | zero => intro n hn; interval_cases n; simp [pyStrAux, fromDigitChars]
  | succ f ih =>
    intro n hn
    match n with
    | 0 => simp [pyStrAux, fromDigitChars]
    | m + 1 =>
      have hdiv : (m + 1) / 10 ≤ f := by
        have := Nat.div_lt_self (Nat.succ_pos m) (by norm_num : 1 < 10)
        omega
      have hrec := ih ((m + 1) / 10) hdiv
      have hd : (m + 1) % 10 < 10 := Nat.mod_lt _ (by norm_num)
      simp only [pyStrAux, fromDigitChars, List.foldl_append, List.foldl_cons, List.foldl_nil]
      simp only [fromDigitChars] at hrec
      rw [hrec, digitChar_decode hd]
      omega

/-- Decoding `pyStr` of a number. -/
theorem fromDigitChars_pyStr (n : ℕ) : fromDigitChars (pyStr n) = n := by
  unfold pyStr
  split_ifs with h
  · subst h; decide
  · exact fromDigitChars_pyStrAux n n le_rfl

/-- The decimal rendering is injective. -/
theorem pyStr_inj {m n : ℕ} (h : pyStr m = pyStr n) : m = n := by
  have := fromDigitChars_pyStr m
  rw [h, fromDigitChars_pyStr] at this
  exact this.symm

/-- Splitting a string of the shape `a ++ "_" ++ x` is unambiguous when the
prefix contains no underscore. -/
theorem underscore_split : ∀ (a a' x x' : List Char), ('_' : Char) ∉ a → ('_' : Char) ∉ a' →
    a ++ '_' :: x = a' ++ '_' :: x' → a = a' ∧ x = x' := by
  intro a
  induction a with
  | nil =>
    intro a' x x' _ ha' h
    cases a' with
    | nil => simpa using h
    | cons b t =>
      simp only [List.nil_append, List.cons_append, List.cons.injEq] at h
      exact absurd (h.1 ▸ List.mem_cons_self b t) ha'
  | cons b t ih =>
    intro a' x x' ha ha' h
    cases a' with
    | nil =>
      simp only [List.cons_append, List.nil_append, List.cons.injEq] at h
      exact absurd (h.1.symm ▸ List.mem_cons_self b t) ha
    | cons b' t' =>
      simp only [List.cons_append, List.cons.injEq] at h
      obtain ⟨hb, hrest⟩ := h
      have ht := ih t' x x' (fun hm => ha (List.mem_cons_of_mem b hm))
        (fun hm => ha' (List.mem_cons_of_mem b' hm)) hrest
      exact ⟨by rw [hb, ht.1], ht.2⟩

/-- C10 groundwork: the cache key `f"{band}_{row}_{col}"` encodes the
triple injectively, so two different (band, row, col) triples can never
collide in the cache dictionary. -/
theorem cacheKey_inj {b g c b' g' c' : ℕ} (h : cacheKey b g c = cacheKey b' g' c') :
    b = b' ∧ g = g' ∧ c = c' := by
  have hd : pyStr b ++ '_' :: (pyStr g ++ '_' :: pyStr c) =
      pyStr b' ++ '_' :: (pyStr g' ++ '_' :: pyStr c') := congrArg String.data h
  obtain ⟨h1, h2⟩ := underscore_split _ _ _ _ (pyStr_no_underscore b) (pyStr_no_underscore b') hd
  obtain ⟨h3, h4⟩ := underscore_split _ _ _ _ (pyStr_no_underscore g) (pyStr_no_underscore g') h2
  exact ⟨pyStr_inj h1, pyStr_inj h3, pyStr_inj h4⟩

/-- A successful cache lookup returns a stored entry. -/
theorem cacheFind_mem {key : String} {q : ℚ} :
    ∀ {l : List (String × ℚ)}, cacheFind key l = some q → (key, q) ∈ l := by
  intro l
  induction l with
  | nil => intro h; simp [cacheFind] at h
  | cons p t ih =>
    intro h
    match p with
    | (k, v) =>
      by_cases hk : k = key
      · simp only [cacheFind, if_pos hk] at h
        subst hk
        exact (Option.some_inj.mp h) ▸ List.mem_cons_self _ _
      · simp only [cacheFind, if_neg hk] at h
        exact List.mem_cons_of_mem _ (ih h)

/-- A grid-cell scan yields either a finite average or NaN, never an
infinity. -/
theorem gridAverageScan_shape (s : Viewer) (grow gcol : ℕ) :
    (∃ q, gridAverageScan s grow gcol = .fin q) ∨ gridAverageScan s grow gcol = .nan := by
  unfold gridAverageScan
  dsimp only
  split_ifs <;> simp

/-- The grid-cell scan never reads the cache. -/
theorem gridAverageScan_cache_irrel (s : Viewer) (X : List (String × ℚ)) (grow gcol : ℕ) :
    gridAverageScan { s with grid_averages := X } grow gcol = gridAverageScan s grow gcol := rfl

/-- Cell extraction never reads the cache. -/
theorem cellPixels_cache_irrel (s : Viewer) (X : List (String × ℚ)) (grow gcol : ℕ) :
    cellPixels { s with grid_averages := X } grow gcol = cellPixels s grow gcol := rfl

/-- Agreement off the cache composes. -/
theorem sameExceptCache_trans {s t u : Viewer} (h1 : SameExceptCache s t)
    (h2 : SameExceptCache t u) : SameExceptCache s u := by
  unfold SameExceptCache at *
  rw [h1] at h2
  exact h2

/-- Under a well-formed cache, `_get_grid_average` returns exactly the
recomputed average of the requested cell of the current band (a stale or
cross-band cache value is unreachable), preserves well-formedness, and
touches nothing but the cache. -/
theorem getGridAverage_wf (s : Viewer) (grow gcol : ℕ) (h : CacheWF s) :
    (getGridAverage s grow gcol).1 = gridAverageScan s grow gcol ∧
    CacheWF (getGridAverage s grow gcol).2.1 ∧
    SameExceptCache s (getGridAverage s grow gcol).2.1 := by
  unfold getGridAverage
  dsimp only
  rcases hf : cacheFind (cacheKey s.current_band grow gcol) s.grid_averages with _ | q
  · rcases gridAverageScan_shape s grow gcol with ⟨q, hq⟩ | hq <;> rw [hq]
    · refine ⟨rfl, ?_, rfl⟩
      intro k v hk
      rcases List.mem_cons.mp hk with hk | hk
      · rw [Prod.mk.injEq] at hk
        exact ⟨grow, gcol, by rw [hk.1], by rw [hk.2]; exact hq.symm⟩
      · exact h k v hk
    · exact ⟨rfl, h, rfl⟩
  · obtain ⟨g', c', hkey, hval⟩ := h _ _ (cacheFind_mem hf)
    obtain ⟨_, hg, hc⟩ := cacheKey_inj hkey
    refine ⟨?_, h, rfl⟩
    rw [← hg, ← hc] at hval
    exact hval

/-- The neighbourhood fold: starting from any accumulator whose state is
`s` up to the cache and whose cache is well-formed, folding `nbhdStep`
over any offset list appends exactly the per-cell averages, pooled pixels
and cell count described by `usedAvgList`, `pooledPixelList` and
`usedCellList`, and preserves the cache invariant. -/
theorem nbhdFold_spec (s : Viewer) (grow gcol : ℕ) :
    ∀ (offs : List (ℤ × ℤ)) (acc : NbhdAcc), CacheWF acc.st → SameExceptCache s acc.st →
      (List.foldl (nbhdStep grow gcol) acc offs).avgs =
        acc.avgs ++ usedAvgList s grow gcol offs ∧
      (List.foldl (nbhdStep grow gcol) acc offs).pooled =
        acc.pooled ++ pooledPixelList s grow gcol offs ∧
      (List.foldl (nbhdStep grow gcol) acc offs).used =
        acc.used + (usedCellList s grow gcol offs).length ∧
      CacheWF (List.foldl (nbhdStep grow gcol) acc offs).st ∧
      SameExceptCache s (List.foldl (nbhdStep grow gcol) acc offs).st := by
  intro offs
  induction offs with
  | nil =>
    intro acc h1 h2
    simp [usedAvgList, usedCellList, inBoundsOffs, pooledPixelList, h1, h2]
  | cons off rest ih =>
    intro acc h1 h2
    obtain ⟨X, hX⟩ : ∃ X, acc.st = { s with grid_averages := X } := ⟨acc.st.grid_averages, h2⟩
    simp only [List.foldl_cons]
    by_cases hb : (0 ≤ (grow : ℤ) + off.1 ∧ (grow : ℤ) + off.1 < s.grid_rows ∧
                   0 ≤ (gcol : ℤ) + off.2 ∧ (gcol : ℤ) + off.2 < s.grid_cols)
    · have hstep : nbhdStep grow gcol acc off =
          (let res := getGridAverage acc.st (((grow : ℤ) + off.1).toNat)
            (((gcol : ℤ) + off.2).toNat)
           match res.1 with
           | .fin q =>
             ⟨res.2.1, acc.avgs ++ [q],
              acc.pooled ++ (cellPixels res.2.1 (((grow : ℤ) + off.1).toNat)
                (((gcol : ℤ) + off.2).toNat)).filter (fun v => !v.isnan),
              acc.used + 1⟩
           | _ => { acc with st := res.2.1 }) := by
        unfold nbhdStep
        rw [if_pos (by rw [hX]; exact hb)]
      obtain ⟨hv, hwf', hsame'⟩ := getGridAverage_wf acc.st (((grow : ℤ) + off.1).toNat)
        (((gcol : ℤ) + off.2).toNat) h1
      have hscan_eq : gridAverageScan acc.st (((grow : ℤ) + off.1).toNat)
          (((gcol : ℤ) + off.2).toNat) =
          gridAverageScan s (((grow : ℤ) + off.1).toNat) (((gcol : ℤ) + off.2).toNat) := by
        rw [hX]
        exact gridAverageScan_cache_irrel s X _ _
      have hsame2 : SameExceptCache s (getGridAverage acc.st (((grow : ℤ) + off.1).toNat)
          (((gcol : ℤ) + off.2).toNat)).2.1 := sameExceptCache_trans h2 hsame'
      have hpix : cellPixels (getGridAverage acc.st (((grow : ℤ) + off.1).toNat)
          (((gcol : ℤ) + off.2).toNat)).2.1 (((grow : ℤ) + off.1).toNat)
          (((gcol : ℤ) + off.2).toNat) =
          cellPixels s (((grow : ℤ) + off.1).toNat) (((gcol : ℤ) + off.2).toNat) := by
        rw [hsame2]
        exact cellPixels_cache_irrel s _ _ _
      rcases gridAverageScan_shape s (((grow : ℤ) + off.1).toNat) (((gcol : ℤ) + off.2).toNat)
        with ⟨q, hsc⟩ | hsc
      · have hv1 : (getGridAverage acc.st (((grow : ℤ) + off.1).toNat)
            (((gcol : ℤ) + off.2).toNat)).1 = .fin q := by rw [hv, hscan_eq, hsc]
        rw [hstep]
        dsimp only
        rw [hv1, hpix]
        obtain ⟨ha, hp, hu, hw, hs⟩ := ih ⟨(getGridAverage acc.st (((grow : ℤ) + off.1).toNat)
          (((gcol : ℤ) + off.2).toNat)).2.1, acc.avgs ++ [q],
          acc.pooled ++ (cellPixels s (((grow : ℤ) + off.1).toNat)
            (((gcol : ℤ) + off.2).toNat)).filter (fun v => !v.isnan),
          acc.used + 1⟩ hwf' hsame2
        refine ⟨?_, ?_, ?_, hw, hs⟩
        · rw [ha]
          have : usedAvgList s grow gcol (off :: rest) =
              q :: usedAvgList s grow gcol rest := by
            unfold usedAvgList usedCellList inBoundsOffs
            rw [List.filter_cons_of_pos (by simpa using hb)]
            simp only [List.map_cons, List.filter_cons]
            rw [if_pos (by simp [hsc, FVal.isnan])]
            simp [hsc, FVal.finPart]
          rw [this, List.append_cons]
          simp
        · rw [hp]
          have : pooledPixelList s grow gcol (off :: rest) =
              (cellPixels s (((grow : ℤ) + off.1).toNat) (((gcol : ℤ) + off.2).toNat)).filter
                (fun v => !v.isnan) ++ pooledPixelList s grow gcol rest := by
            unfold pooledPixelList usedCellList inBoundsOffs
            rw [List.filter_cons_of_pos (by simpa using hb)]
            simp only [List.map_cons, List.filter_cons]
            rw [if_pos (by simp [hsc, FVal.isnan])]
            simp
          rw [this]
          simp
        · rw [hu]
          have : usedCellList s grow gcol (off :: rest) =
              (((grow : ℤ) + off.1).toNat, ((gcol : ℤ) + off.2).toNat) ::
                usedCellList s grow gcol rest := by
            unfold usedCellList inBoundsOffs
            rw [List.filter_cons_of_pos (by simpa using hb)]
            simp only [List.map_cons, List.filter_cons]
            rw [if_pos (by simp [hsc, FVal.isnan])]
          rw [this]
          simp [Nat.add_comm, Nat.add_assoc, Nat.add_left_comm]
      · have hv1 : (getGridAverage acc.st (((grow : ℤ) + off.1).toNat)
            (((gcol : ℤ) + off.2).toNat)).1 = .nan := by rw [hv, hscan_eq, hsc]
        rw [hstep]
        dsimp only
        rw [hv1]
        obtain ⟨ha, hp, hu, hw, hs⟩ := ih { acc with st := (getGridAverage acc.st
          (((grow : ℤ) + off.1).toNat) (((gcol : ℤ) + off.2).toNat)).2.1 } hwf' hsame2
        refine ⟨?_, ?_, ?_, hw, hs⟩ <;>
          [skip; skip; skip] <;>
          first
          | (rw [ha]
             have : usedAvgList s grow gcol (off :: rest) = usedAvgList s grow gcol rest := by
               unfold usedAvgList usedCellList inBoundsOffs
               rw [List.filter_cons_of_pos (by simpa using hb)]
               simp only [List.map_cons, List.filter_cons]
               rw [if_neg (by simp [hsc, FVal.isnan])]
             rw [this])
          | (rw [hp]
             have : pooledPixelList s grow gcol (off :: rest) =
                 pooledPixelList s grow gcol rest := by
               unfold pooledPixelList usedCellList inBoundsOffs
               rw [List.filter_cons_of_pos (by simpa using hb)]
               simp only [List.map_cons, List.filter_cons]
               rw [if_neg (by simp [hsc, FVal.isnan])]
             rw [this])
          | (rw [hu]
             have : usedCellList s grow gcol (off :: rest) = usedCellList s grow gcol rest := by
               unfold usedCellList inBoundsOffs
               rw [List.filter_cons_of_pos (by simpa using hb)]
               simp only [List.map_cons, List.filter_cons]
               rw [if_neg (by simp [hsc, FVal.isnan])]
             rw [this])
    · have hstep : nbhdStep grow gcol acc off = acc :=
        nbhdStep_oob grow gcol acc off (by rw [hX]; exact hb)
      rw [hstep]
      obtain ⟨ha, hp, hu, hw, hs⟩ := ih acc h1 h2
      have hskip : ∀ (f : List (ℤ × ℤ) → List (ℕ × ℕ)), True := fun _ => trivial
      have hcons : inBoundsOffs s grow gcol (off :: rest) = inBoundsOffs s grow gcol rest := by
        unfold inBoundsOffs
        rw [List.filter_cons_of_neg (by simpa using hb)]
      refine ⟨?_, ?_, ?_, hw, hs⟩
      · rw [ha]; unfold usedAvgList usedCellList; rw [hcons]
      · rw [hp]; unfold pooledPixelList usedCellList; rw [hcons]
      · rw [hu]; unfold usedCellList; rw [hcons]

/-- Celsius conversion of a finite value matches the rational version. -/
theorem toCelsiusF_fin (q : ℚ) : toCelsiusF (.fin q) = .fin (toCelsiusQ q) := by
  unfold toCelsiusF toCelsiusQ FVal.flt
  split_ifs with h1 h2 h3
  · simp only [FVal.addC]
    rw [sub_eq_add_neg]
  · exact absurd (of_decide_eq_true h1) h2
  · exact absurd (decide_eq_true h3) (by simpa using h1)
  · rfl

/-- The Normal-range filter of the grid average keeps nothing exactly when
no pixel of the list qualifies in the claim's sense (finite with Celsius
equivalent within [0, 50]). -/
theorem gridNormalData_eq_nil_iff (l : List FVal) :
    gridNormalData (l.filter (fun v => !v.isnan)) = [] ↔ ∀ v ∈ l, ¬pixelQualifies v := by
  unfold gridNormalData
  rw [List.filterMap_eq_nil_iff]
  constructor
  · intro h v hv hq
    obtain ⟨q, rfl, h0, h50⟩ := hq
    have hmem : FVal.fin q ∈ l.filter (fun v => !v.isnan) :=
      List.mem_filter.mpr ⟨hv, by simp [FVal.isnan]⟩
    have := h _ hmem
    rw [toCelsiusF_fin] at this
    simp only [FVal.fle, decide_eq_true_eq, NORMAL_MIN, NORMAL_MAX] at this
    rw [if_pos (by simp [h0, h50, decide_eq_true_eq]), FVal.finPart] at this
    exact Option.noConfusion this
  · intro h v hv
    have hvl : v ∈ l := (List.mem_filter.mp hv).1
    cases v with
    | fin q =>
      rw [toCelsiusF_fin]
      by_cases hc : (0 : ℚ) ≤ toCelsiusQ q ∧ toCelsiusQ q ≤ 50
      · exact absurd ⟨q, rfl, hc.1, hc.2⟩ (h _ hvl)
      · rw [if_neg]
        simp only [FVal.fle, NORMAL_MIN, NORMAL_MAX, Bool.and_eq_true, decide_eq_true_eq]
        exact fun hb => hc ⟨hb.1, hb.2⟩
    | nan => simp [FVal.fle, toCelsiusF, FVal.flt, FVal.addC]
    | pinf =>
      simp [FVal.fle, toCelsiusF, FVal.flt, FVal.addC]
    | ninf =>
      simp [FVal.fle, toCelsiusF, FVal.flt, FVal.addC]

/-- Whether a validation message is the directional "Extreme cold" one. -/
def msgIsCold : VMsg → Bool
  | .extremeCold _ => true
  | _ => false

/-- C7 amended: the neighbourhood average is the arithmetic mean of the
non-NaN per-cell grid averages over the target cell and its in-bounds 3x3
neighbours (an average of averages); its pooled statistics list is the
non-NaN (rather than qualifying) raw pixels of the cells actually used,
from which the count, min, max and standard deviation components are
computed; and it reports no-data exactly when no cell of the neighbourhood
has a non-NaN grid average. -/
theorem neighborhood_average_characterisation (s : Viewer) (grow gcol : ℕ) (h : CacheWF s) :
    ((getNeighborhoodAverage s grow gcol).avgs = usedAvgList s grow gcol neighborhoodOffsets ∧
     (getNeighborhoodAverage s grow gcol).pooled =
       pooledPixelList s grow gcol neighborhoodOffsets ∧
     (getNeighborhoodAverage s grow gcol).used =
       (usedCellList s grow gcol neighborhoodOffsets).length) ∧
    (usedAvgList s grow gcol neighborhoodOffsets ≠ [] →
      nbhdAvg (getNeighborhoodAverage s grow gcol) =
        .fin (meanQ (usedAvgList s grow gcol neighborhoodOffsets))) ∧
    (nbhdAvg (getNeighborhoodAverage s grow gcol) = .nan ∧
        (getNeighborhoodAverage s grow gcol).used = 0 ↔
      usedCellList s grow gcol neighborhoodOffsets = []) := by
  obtain ⟨ha, hp, hu, _, _⟩ :=
    nbhdFold_spec s grow gcol neighborhoodOffsets ⟨s, [], [], 0⟩ h rfl
  rw [List.nil_append] at ha hp
  rw [Nat.zero_add] at hu
  have ha' : (getNeighborhoodAverage s grow gcol).avgs =
      usedAvgList s grow gcol neighborhoodOffsets := ha
  have hp' : (getNeighborhoodAverage s grow gcol).pooled =
      pooledPixelList s grow gcol neighborhoodOffsets := hp
  have hu' : (getNeighborhoodAverage s grow gcol).used =
      (usedCellList s grow gcol neighborhoodOffsets).length := hu
  refine ⟨⟨ha', hp', hu'⟩, ?_, ?_⟩
  · intro hne
    unfold nbhdAvg
    rw [ha', if_pos (List.length_pos.mpr hne)]
  · constructor
    · rintro ⟨_, hused⟩
      rw [hu'] at hused
      exact List.length_eq_zero.mp hused
    · intro hcells
      have hemp : usedAvgList s grow gcol neighborhoodOffsets = [] := by
        unfold usedAvgList
        rw [hcells]
        rfl
      constructor
      · unfold nbhdAvg
        rw [ha', hemp]
        simp
      · rw [hu', hcells]
        rfl

/-- C7 counterexample: in a used cell holding the qualifying pixel 20 and
the finite non-qualifying sentinel -9999, the pooled minimum reported by
the neighbourhood average is -9999, while the minimum over the claim's
"raw qualifying pixels of the cells actually used" is 20: the pooled
statistics are computed over all non-NaN pixels, not over qualifying
ones. -/
theorem neighborhood_stats_not_from_qualifying_pixels :
    nbhdMin (getNeighborhoodAverage c7Viewer 0 0) = .fin (-9999) ∧
    npMinF (claimPooledQualifying c7Viewer 0 0 neighborhoodOffsets) = .fin 20 ∧
    (FVal.fin (-9999) : FVal) ≠ .fin 20 := by
  have hwf : CacheWF c7Viewer := by
    intro k q hk
    simp [c7Viewer, testViewer] at hk
  obtain ⟨_, hp, _, _, _⟩ :=
    nbhdFold_spec c7Viewer 0 0 neighborhoodOffsets ⟨c7Viewer, [], [], 0⟩ hwf rfl
  have hp' : (getNeighborhoodAverage c7Viewer 0 0).pooled =
      pooledPixelList c7Viewer 0 0 neighborhoodOffsets := by
    rw [← List.nil_append (pooledPixelList c7Viewer 0 0 neighborhoodOffsets)]
    exact hp
  have hpl : pooledPixelList c7Viewer 0 0 neighborhoodOffsets = [.fin 20, .fin (-9999)] := by
    simp +decide [pooledPixelList, usedCellList, inBoundsOffs, neighborhoodOffsets,
      c7Viewer, testViewer, cellPixels, bandPixel, gridAverageScan, gridNormalData,
      toCelsiusF, FVal.flt, FVal.fle, FVal.finPart, FVal.isnan, FVal.addC,
      NORMAL_MIN, NORMAL_MAX, List.range_succ]
  refine ⟨?_, ?_, by decide⟩
  · unfold nbhdMin
    rw [hp', hpl]
    simp +decide [npMinF, FVal.flt]
  · simp +decide [claimPooledQualifying, usedCellList, inBoundsOffs, neighborhoodOffsets,
      c7Viewer, testViewer, cellPixels, bandPixel, gridAverageScan, gridNormalData,
      toCelsiusF, FVal.flt, FVal.fle, FVal.finPart, FVal.isnan, FVal.isfinite, FVal.addC,
      npMinF, NORMAL_MIN, NORMAL_MAX, List.range_succ]

/-- Witness for C7 amended on the concrete fixture: the cache invariant
holds for the empty cache, at least one cell qualifies, and the returned
average is the mean of the per-cell averages. -/
theorem neighborhood_average_characterisation_witness :
    CacheWF c7Viewer ∧
    usedAvgList c7Viewer 0 0 neighborhoodOffsets ≠ [] ∧
    nbhdAvg (getNeighborhoodAverage c7Viewer 0 0) =
      .fin (meanQ (usedAvgList c7Viewer 0 0 neighborhoodOffsets)) := by
  have hwf : CacheWF c7Viewer := by
    intro k q hk
    simp [c7Viewer, testViewer] at hk
  have hne : usedAvgList c7Viewer 0 0 neighborhoodOffsets ≠ [] := by
    simp +decide [usedAvgList, usedCellList, inBoundsOffs, neighborhoodOffsets,
      c7Viewer, testViewer, cellPixels, bandPixel, gridAverageScan, gridNormalData,
      toCelsiusF, FVal.flt, FVal.fle, FVal.finPart, FVal.isnan, FVal.addC,
      NORMAL_MIN, NORMAL_MAX, List.range_succ]
  exact ⟨hwf, hne, (neighborhood_average_characterisation c7Viewer 0 0 hwf).2.1 hne⟩

/-- With an active validator, a cell scan yields NaN exactly when no pixel
of the cell qualifies. -/
theorem gridAverageScan_eq_nan_iff (s : Viewer) (grow gcol : ℕ)
    (hv : s.validator.isSome = true) :
    gridAverageScan s grow gcol = .nan ↔
      ∀ v ∈ cellPixels s grow gcol, ¬pixelQualifies v := by
  unfold gridAverageScan
  dsimp only
  constructor
  · intro h
    rw [← gridNormalData_eq_nil_iff]
    by_contra hne
    have hlen : 0 < (gridNormalData ((cellPixels s grow gcol).filter
        (fun v => !v.isnan))).length := List.length_pos.mpr hne
    have hvalid : 0 < ((cellPixels s grow gcol).filter (fun v => !v.isnan)).length := by
      by_contra h0
      rw [Nat.pos_iff_ne_zero, Ne, not_not, List.length_eq_zero] at h0
      rw [h0] at hne
      exact hne rfl
    rw [if_pos ⟨hvalid, hv⟩, if_pos hlen] at h
    exact FVal.noConfusion h
  · intro h
    rw [← gridNormalData_eq_nil_iff] at h
    split_ifs with hc hlen
    · rw [h] at hlen
      simp at hlen
    · rfl
    · rfl

/-- C8: a grid-average call that returns a finite value caches it, and a
repeat call for the unchanged band and cell returns the identical value
from the cache without rescanning; on a fresh cell with an active
validator the call returns NaN exactly when no pixel of the cell qualifies
(finite, Celsius equivalent within [0, 50]), and a NaN result leaves the
cache (indeed the whole viewer) unchanged, so it is not cached. -/
theorem grid_average_idempotent_cached (s : Viewer) (grow gcol : ℕ) :
    (∀ q s1 b1, getGridAverage s grow gcol = (.fin q, s1, b1) →
        getGridAverage s1 grow gcol = (.fin q, s1, false)) ∧
    (cacheFind (cacheKey s.current_band grow gcol) s.grid_averages = none →
      s.validator.isSome = true →
      (((getGridAverage s grow gcol).1 = .nan ↔
          ∀ v ∈ cellPixels s grow gcol, ¬pixelQualifies v) ∧
       ((getGridAverage s grow gcol).1 = .nan →
          getGridAverage s grow gcol = (.nan, s, true)))) := by
  constructor
  · intro q s1 b1 heq
    rcases hf : cacheFind (cacheKey s.current_band grow gcol) s.grid_averages with _ | q'
    · rcases gridAverageScan_shape s grow gcol with ⟨q0, hsc⟩ | hsc
      · have h1 : getGridAverage s grow gcol =
            (.fin q0, { s with grid_averages :=
              (cacheKey s.current_band grow gcol, q0) :: s.grid_averages }, true) := by
          unfold getGridAverage
          dsimp only
          rw [hf, hsc]
        rw [h1] at heq
        have hq : FVal.fin q0 = FVal.fin q := congrArg Prod.fst heq
        have hs : ({ s with grid_averages :=
            (cacheKey s.current_band grow gcol, q0) :: s.grid_averages } : Viewer) = s1 :=
          congrArg (fun p => p.2.1) heq
        subst hs
        have h2 : getGridAverage { s with grid_averages :=
            (cacheKey s.current_band grow gcol, q0) :: s.grid_averages } grow gcol =
            (.fin q0, { s with grid_averages :=
              (cacheKey s.current_band grow gcol, q0) :: s.grid_averages }, false) := by
          unfold getGridAverage
          dsimp only
          rw [show cacheFind (cacheKey s.current_band grow gcol)
              ((cacheKey s.current_band grow gcol, q0) :: s.grid_averages) = some q0 from by
            unfold cacheFind
            rw [if_pos rfl]]
        rw [h2, hq]
      · have h1 : getGridAverage s grow gcol = (.nan, s, true) := by
          unfold getGridAverage
          dsimp only
          rw [hf, hsc]
        rw [h1] at heq
        exact absurd (congrArg Prod.fst heq) (by simp)
    · have h1 : getGridAverage s grow gcol = (.fin q', s, false) := by
        unfold getGridAverage
        dsimp only
        rw [hf]
      rw [h1] at heq
      have hq : FVal.fin q' = FVal.fin q := congrArg Prod.fst heq
      have hs : s = s1 := congrArg (fun p => p.2.1) heq
      subst hs
      rw [h1, hq]
  · intro hf hv
    have hval : (getGridAverage s grow gcol).1 = gridAverageScan s grow gcol := by
      unfold getGridAverage
      dsimp only
      rw [hf]
      rcases gridAverageScan_shape s grow gcol with ⟨q0, hsc⟩ | hsc <;> rw [hsc]
    constructor
    · rw [hval]
      exact gridAverageScan_eq_nan_iff s grow gcol hv
    · intro hnan
      rw [hval] at hnan
      unfold getGridAverage
      dsimp only
      rw [hf, hnan]

/-- Witness for C8: on the mixed cell the first call computes 15 and the
second call returns the cached 15 without scanning; on the all-sentinel
cell (fresh key, active validator) the call returns NaN, no pixel
qualifies, and the viewer (hence the cache) is left unchanged. -/
theorem grid_average_idempotent_cached_witness :
    (getGridAverage c8Viewer 0 0).1 = .fin 15 ∧
    getGridAverage (getGridAverage c8Viewer 0 0).2.1 0 0 =
      (.fin 15, (getGridAverage c8Viewer 0 0).2.1, false) ∧
    cacheFind (cacheKey c8BadViewer.current_band 0 0) c8BadViewer.grid_averages = none ∧
    c8BadViewer.validator.isSome = true ∧
    (getGridAverage c8BadViewer 0 0).1 = .nan ∧
    (∀ v ∈ cellPixels c8BadViewer 0 0, ¬pixelQualifies v) ∧
    getGridAverage c8BadViewer 0 0 = (.nan, c8BadViewer, true) := by
  have h1 : (getGridAverage c8Viewer 0 0).1 = .fin 15 := by
    simp +decide [getGridAverage, cacheFind, gridAverageScan, gridNormalData, cellPixels,
      bandPixel, toCelsiusF, FVal.flt, FVal.fle, FVal.finPart, FVal.isnan, FVal.addC,
      NORMAL_MIN, NORMAL_MAX, c8Viewer, testViewer, List.range_succ]
    norm_num [meanQ]
  have heq : getGridAverage c8Viewer 0 0 =
      (.fin 15, (getGridAverage c8Viewer 0 0).2.1, (getGridAverage c8Viewer 0 0).2.2) := by
    rw [← h1]
  have hfB : cacheFind (cacheKey c8BadViewer.current_band 0 0) c8BadViewer.grid_averages =
      none := by
    simp [c8BadViewer, testViewer, cacheFind]
  have hvB : c8BadViewer.validator.isSome = true := by
    simp [c8BadViewer, testViewer]
  have hnan : (getGridAverage c8BadViewer 0 0).1 = .nan := by
    simp +decide [getGridAverage, cacheFind, gridAverageScan, gridNormalData, cellPixels,
      bandPixel, toCelsiusF, FVal.flt, FVal.fle, FVal.finPart, FVal.isnan, FVal.addC,
      NORMAL_MIN, NORMAL_MAX, c8BadViewer, testViewer, List.range_succ]
  exact ⟨h1, (grid_average_idempotent_cached c8Viewer 0 0).1 15 _ _ heq, hfB, hvB, hnan,
    ((grid_average_idempotent_cached c8BadViewer 0 0).2 hfB hvB).1.mp hnan,
    ((grid_average_idempotent_cached c8BadViewer 0 0).2 hfB hvB).2 hnan⟩

/-- Sampling preserves the cache invariant: the viewer state returned by
the click-sampling path differs from the input only by getGridAverage
insertions for the current band. -/
theorem sampledValue_wf (s : Viewer) (px py : ℕ) (h : CacheWF s) :
    ∀ v s1, sampledValue s px py = some (v, s1) → CacheWF s1 := by
  intro v s1 heq
  unfold sampledValue at heq
  dsimp only at heq
  split_ifs at heq with h1 h2 h3 h4 h5 <;>
    simp only [Option.some.injEq, Prod.mk.injEq, reduceCtorEq] at heq
  · obtain ⟨_, hs⟩ := heq
    rw [← hs]
    exact (nbhdFold_spec s (intFloorQ ((py : ℚ) * s.preview_scale_y) / s.grid_size)
      (intFloorQ ((px : ℚ) * s.preview_scale_x) / s.grid_size) neighborhoodOffsets
      ⟨s, [], [], 0⟩ h rfl).2.2.2.1
  · obtain ⟨_, hs⟩ := heq
    rw [← hs]
    exact h
  · obtain ⟨_, hs⟩ := heq
    rw [← hs]
    exact h
  · obtain ⟨_, hs⟩ := heq
    rw [← hs]
    exact h

/-- A click preserves the cache invariant. -/
theorem clickState_wf (s : Viewer) (px py : ℕ) (h : CacheWF s) :
    CacheWF (clickState s px py) := by
  unfold clickState
  split_ifs with hd
  · dsimp only
    rcases hs : sampledValue { s with last_click := some (px, py) } px py with _ | ⟨v, s1⟩
    · exact h
    · exact sampledValue_wf { s with last_click := some (px, py) } px py h v s1 hs
  · exact h

/-- C10: the grid-average cache is keyed by the string encoding of the
triple (current band, grid row, grid column), which is injective, so a
lookup under a well-formed cache can only return the value computed for
the same band and cell of the query (a cross-band stale average is
unreachable) and the invariant is preserved; moreover the whole cache is
cleared in bulk by every band change (before the optional re-sampling for
the new band, whose insertions keep the invariant) and by every grid
recomputation. -/
theorem cache_keying_and_invalidation :
    (∀ b g c b' g' c' : ℕ, cacheKey b g c = cacheKey b' g' c' →
      b = b' ∧ g = g' ∧ c = c') ∧
    (∀ (s : Viewer) (grow gcol : ℕ), CacheWF s →
      (getGridAverage s grow gcol).1 = gridAverageScan s grow gcol ∧
      CacheWF (getGridAverage s grow gcol).2.1) ∧
    (∀ (s : Viewer) (index : ℤ) (band : ℕ), 0 ≤ index → s.last_click = none →
      (onBandChanged s index band).grid_averages = []) ∧
    (∀ (s : Viewer) (index : ℤ) (band : ℕ), 0 ≤ index →
      CacheWF (onBandChanged s index band)) ∧
    (∀ (s : Viewer) (w h : ℕ), (calculateGridSystem s w h).grid_averages = []) := by
  refine ⟨fun b g c b' g' c' h => cacheKey_inj h, ?_, ?_, ?_, ?_⟩
  · intro s grow gcol h
    obtain ⟨h1, h2, _⟩ := getGridAverage_wf s grow gcol h
    exact ⟨h1, h2⟩
  · intro s index band hidx hclick
    unfold onBandChanged
    rw [if_neg (by omega), hclick]
  · intro s index band hidx
    unfold onBandChanged
    rw [if_neg (by omega)]
    dsimp only
    have hempty : ∀ t : Viewer, t.grid_averages = [] → CacheWF t := by
      intro t ht k q hk
      rw [ht] at hk
      exact absurd hk (List.not_mem_nil _)
    rcases hc : s.last_click with _ | ⟨px, py⟩
    · exact hempty _ rfl
    · exact clickState_wf _ px py (hempty _ rfl)
  · intro s w h
    unfold calculateGridSystem
    rfl

/-- Witness for C10 on the concrete fixture: the empty cache is
well-formed, a lookup returns the recomputed average of the queried cell,
and both the band change and the grid recomputation leave an empty
cache. -/
theorem cache_keying_and_invalidation_witness :
    CacheWF c10Viewer ∧
    (getGridAverage c10Viewer 0 0).1 = gridAverageScan c10Viewer 0 0 ∧
    (onBandChanged c10Viewer 0 2).grid_averages = [] ∧
    CacheWF (onBandChanged c10Viewer 0 2) ∧
    (calculateGridSystem c10Viewer 800 600).grid_averages = [] := by
  have hwf : CacheWF c10Viewer := by
    intro k q hk
    simp [c10Viewer, testViewer] at hk
  exact ⟨hwf, (cache_keying_and_invalidation.2.1 c10Viewer 0 0 hwf).1,
    cache_keying_and_invalidation.2.2.1 c10Viewer 0 2 (by norm_num)
      (by simp [c10Viewer, testViewer]),
    cache_keying_and_invalidation.2.2.2.1 c10Viewer 0 2 (by norm_num),
    cache_keying_and_invalidation.2.2.2.2 c10Viewer 800 600⟩

/-- C1: the code is broken here.  With band metadata scale 2, offset 0 and
raw pixel value 30, all three sampling paths of on_image_click (single
pixel, grid-cell average, 3x3 neighbourhood average) hand the raw value 30
to validate_single_value, not the transformed value 60 = 30*2 + 0: the
scale/offset transform is applied zero times, not exactly once, before
classification (it is only applied to the data passed to the interpolation
fallback and to band scoring). -/
theorem sampling_paths_classify_raw_values :
    clickClassifiedValue c1Viewer 0 0 = some (.fin 30) ∧
    clickClassifiedValue c1GridViewer 0 0 = some (.fin 30) ∧
    clickClassifiedValue c1NbhdViewer 0 0 = some (.fin 30) ∧
    apply_metadata_transforms ⟨none, 2, 0⟩ (.fin 30) = .fin 60 ∧
    (FVal.fin 30 : FVal) ≠ .fin 60 := by
  refine ⟨?_, ?_, ?_, ?_, ?_⟩
  · norm_num [clickClassifiedValue, sampledValue, c1Viewer, testViewer, intFloorQ, bandPixel]
  · simp +decide [clickClassifiedValue, sampledValue, c1GridViewer, c1Viewer, testViewer,
      intFloorQ, bandPixel, cellPixels, FVal.isnan, List.range_succ]
    norm_num [meanF, FVal.addF, FVal.divN]
  · have hwf : CacheWF c1NbhdViewer := by
      intro k q hk
      simp [c1NbhdViewer, c1Viewer, testViewer] at hk
    obtain ⟨ha, _, _, _, _⟩ :=
      nbhdFold_spec c1NbhdViewer 0 0 neighborhoodOffsets ⟨c1NbhdViewer, [], [], 0⟩ hwf rfl
    have ha' : (getNeighborhoodAverage c1NbhdViewer 0 0).avgs =
        usedAvgList c1NbhdViewer 0 0 neighborhoodOffsets := by
      rw [← List.nil_append (usedAvgList c1NbhdViewer 0 0 neighborhoodOffsets)]
      exact ha
    have heval : usedAvgList c1NbhdViewer 0 0 neighborhoodOffsets = [30] := by
      simp +decide [usedAvgList, usedCellList, inBoundsOffs, neighborhoodOffsets,
        c1NbhdViewer, c1Viewer, testViewer, cellPixels, bandPixel, gridAverageScan,
        gridNormalData, toCelsiusF, FVal.flt, FVal.fle, FVal.finPart, FVal.isnan, FVal.addC,
        NORMAL_MIN, NORMAL_MAX, List.range_succ]
      norm_num [meanQ]
    have hclick : clickClassifiedValue c1NbhdViewer 0 0 =
        some (nbhdAvg (getNeighborhoodAverage c1NbhdViewer 0 0)) := by
      simp +decide [clickClassifiedValue, sampledValue, c1NbhdViewer, c1Viewer, testViewer,
        intFloorQ]
    rw [hclick]
    unfold nbhdAvg
    rw [ha', heval]
    norm_num [meanQ]
  · norm_num [apply_metadata_transforms, FVal.mulC, FVal.addC]
  · simp

/-- A band score is a weighted sum of two nonnegative percentages. -/
theorem bandScore_nonneg (s : Viewer) (i : ℕ) : 0 ≤ bandScore s i := by
  unfold bandScore
  positivity

/-- Invariant of the band-selection fold: after scanning the first `n`
bands, either every scanned band was skipped and the accumulator is the
initial `(1, -1)`, or the accumulator is `(i + 1, score i)` for the lowest
maximising non-skipped band `i` among the first `n`. -/
theorem selectLoop_inv (s : Viewer) : ∀ n : ℕ,
    ((∀ i, i < n → (bandValidVals s i).length = 0) ∧
      (List.range n).foldl (selectStep s) (1, -1) = (1, -1)) ∨
    (∃ i, i < n ∧ (bandValidVals s i).length ≠ 0 ∧
      (List.range n).foldl (selectStep s) (1, -1) = (i + 1, bandScore s i) ∧
      (∀ j, j < n → (bandValidVals s j).length ≠ 0 →
        bandScore s j ≤ bandScore s i ∧ (bandScore s j = bandScore s i → i ≤ j))) := by
  intro n
  induction n with
  | zero =>
    left
    exact ⟨fun i hi => absurd hi (Nat.not_lt_zero i), rfl⟩
  | succ n ih =>
    rw [List.range_succ, List.foldl_append, List.foldl_cons, List.foldl_nil]
    rcases ih with ⟨hall, hacc⟩ | ⟨i, hi, hne, hacc, hmax⟩
    · rw [hacc]
      by_cases hn : (bandValidVals s n).length = 0
      · left
        refine ⟨fun i hi => ?_, ?_⟩
        · rcases Nat.lt_succ_iff_lt_or_eq.mp hi with h | h
          · exact hall i h
          · rw [h]; exact hn
        · unfold selectStep
          rw [if_pos hn]
      · right
        refine ⟨n, Nat.lt_succ_self n, hn, ?_, ?_⟩
        · unfold selectStep
          rw [if_neg hn, if_pos (lt_of_lt_of_le (by norm_num) (bandScore_nonneg s n))]
        · intro j hj hjne
          rcases Nat.lt_succ_iff_lt_or_eq.mp hj with h | h
          · exact absurd (hall j h) hjne
          · rw [h]
            exact ⟨le_rfl, fun _ => le_rfl⟩
    · rw [hacc]
      by_cases hn : (bandValidVals s n).length = 0
      · right
        refine ⟨i, Nat.lt_succ_of_lt hi, hne, ?_, ?_⟩
        · unfold selectStep
          rw [if_pos hn]
        · intro j hj hjne
          rcases Nat.lt_succ_iff_lt_or_eq.mp hj with h | h
          · exact hmax j h hjne
          · rw [h] at hjne
            exact absurd hn hjne
      · by_cases hlt : bandScore s i < bandScore s n
        · right
          refine ⟨n, Nat.lt_succ_self n, hn, ?_, ?_⟩
          · unfold selectStep
            rw [if_neg hn]
            dsimp only
            rw [if_pos hlt]
          · intro j hj hjne
            rcases Nat.lt_succ_iff_lt_or_eq.mp hj with h | h
            · obtain ⟨hle, _⟩ := hmax j h hjne
              exact ⟨hle.trans hlt.le, fun heq => absurd (heq ▸ hle) (not_le.mpr hlt)⟩
            · rw [h]
              exact ⟨le_rfl, fun _ => le_rfl⟩
        · right
          refine ⟨i, Nat.lt_succ_of_lt hi, hne, ?_, ?_⟩
          · unfold selectStep
            rw [if_neg hn]
            dsimp only
            rw [if_neg hlt]
          · intro j hj hjne
            rcases Nat.lt_succ_iff_lt_or_eq.mp hj with h | h
            · exact hmax j h hjne
            · rw [h]
              exact ⟨not_lt.mp hlt, fun _ => le_of_lt hi⟩

/-- C9: on a multi-band stack with at least one band containing finite
values, select_best_temperature_band (a pure function, hence deterministic
on an unchanged stack) returns one plus the lowest 0-indexed band
maximising the score 0.7*normal_percentage + 0.3*valid_percentage, skipping
bands with no finite values; in particular on the concrete 2-band stack
whose band 1 is entirely the -9999 NoData sentinel and whose band 2 is
100% within [10, 20] Celsius, band 2 is selected. -/
theorem select_best_band_lowest_max :
    (∀ s : Viewer, s.ndim2 = false →
      (∃ i, i < s.band_count ∧ (bandValidVals s i).length ≠ 0) →
      ∃ i, i < s.band_count ∧ (bandValidVals s i).length ≠ 0 ∧
        select_best_temperature_band s = i + 1 ∧
        (∀ j, j < s.band_count → (bandValidVals s j).length ≠ 0 →
          bandScore s j ≤ bandScore s i ∧ (bandScore s j = bandScore s i → i ≤ j))) ∧
    select_best_temperature_band c9Viewer = 2 := by
  constructor
  · intro s h2 hex
    rcases selectLoop_inv s s.band_count with ⟨hall, _⟩ | ⟨i, hi, hne, hacc, hmax⟩
    · obtain ⟨i, hi, hne⟩ := hex
      exact absurd (hall i hi) hne
    · refine ⟨i, hi, hne, ?_, hmax⟩
      unfold select_best_temperature_band
      rw [h2, if_neg (by decide), hacc]
  · simp +decide [select_best_temperature_band, selectStep, bandScore, bandValidVals,
      bandTransformed, bandAllPixels, apply_metadata_transforms, FVal.mulC, FVal.addC,
      FVal.isfinite, FVal.finPart, toCelsiusQ, NORMAL_MIN, NORMAL_MAX, c9Viewer, testViewer,
      List.range_succ]
    norm_num

/-- Witness for C9: the concrete two-band stack satisfies the hypotheses
and the selected band is the maximiser. -/
theorem select_best_band_lowest_max_witness :
    c9Viewer.ndim2 = false ∧
    (∃ i, i < c9Viewer.band_count ∧ (bandValidVals c9Viewer i).length ≠ 0) ∧
    (∃ i, i < c9Viewer.band_count ∧ (bandValidVals c9Viewer i).length ≠ 0 ∧
      select_best_temperature_band c9Viewer = i + 1 ∧
      (∀ j, j < c9Viewer.band_count → (bandValidVals c9Viewer j).length ≠ 0 →
        bandScore c9Viewer j ≤ bandScore c9Viewer i ∧
        (bandScore c9Viewer j = bandScore c9Viewer i → i ≤ j))) := by
  have h2 : c9Viewer.ndim2 = false := by simp [c9Viewer, testViewer]
  have hex : ∃ i, i < c9Viewer.band_count ∧ (bandValidVals c9Viewer i).length ≠ 0 := by
    refine ⟨0, by simp [c9Viewer, testViewer], ?_⟩
    simp +decide [bandValidVals, bandTransformed, bandAllPixels, apply_metadata_transforms,
      FVal.mulC, FVal.addC, FVal.isfinite, FVal.finPart, c9Viewer, testViewer, List.range_succ]
  exact ⟨h2, hex, select_best_band_lowest_max.1 c9Viewer h2 hex⟩

/-- Numerator of the IDW mean when all squared distances are equal. -/
theorem idw_num_const (l : List (ℚ × ℕ)) (k : ℕ) (hall : ∀ p ∈ l, p.2 = k) :
    (l.map (fun p => (p.1 : ℝ) / Real.sqrt (p.2 : ℝ))).sum =
      (l.map (fun p => (p.1 : ℝ))).sum / Real.sqrt (k : ℝ) := by
  induction l with
  | nil => simp
  | cons p t ih =>
    simp only [List.map_cons, List.sum_cons]
    rw [ih (fun q hq => hall q (List.mem_cons_of_mem p hq)),
      hall p (List.mem_cons_self p t)]
    ring

/-- Denominator of the IDW mean when all squared distances are equal. -/
theorem idw_den_const (l : List (ℚ × ℕ)) (k : ℕ) (hall : ∀ p ∈ l, p.2 = k) :
    (l.map (fun p => 1 / Real.sqrt (p.2 : ℝ))).sum = l.length / Real.sqrt (k : ℝ) := by
  induction l with
  | nil => simp
  | cons p t ih =>
    simp only [List.map_cons, List.sum_cons, List.length_cons]
    rw [ih (fun q hq => hall q (List.mem_cons_of_mem p hq)),
      hall p (List.mem_cons_self p t)]
    push_cast
    ring

/-- With equal distances the inverse-distance-weighted mean degenerates to
the arithmetic mean of the values. -/
theorem idwValue_const_dist (l : List (ℚ × ℕ)) (k : ℕ) (hk : 0 < k)
    (hall : ∀ p ∈ l, p.2 = k) (hne : l ≠ []) :
    idwValue l = (l.map (fun p => (p.1 : ℝ))).sum / l.length := by
  unfold idwValue
  rw [idw_num_const l k hall, idw_den_const l k hall]
  have hsq : Real.sqrt (k : ℝ) ≠ 0 :=
    ne_of_gt (Real.sqrt_pos.mpr (by exact_mod_cast hk))
  have hlen : (l.length : ℝ) ≠ 0 := by
    have := List.length_pos.mpr hne
    exact_mod_cast Nat.pos_iff_ne_zero.mp this
  field_simp

/-- C4: classify returns Normal on [0, 50] (Celsius) and on
[273.15, 323.15] (Kelvin), and Unusual on [-60, 0), (50, 70],
[213.15, 273.15) and (323.15, 343.15]. -/
theorem classify_normal_and_unusual_bands (v : ℚ) :
    (((0 ≤ v ∧ v ≤ 50) ∨ (273.15 ≤ v ∧ v ≤ 323.15)) →
      classify_temperature_level v = .normal) ∧
    (((-60 ≤ v ∧ v < 0) ∨ (50 < v ∧ v ≤ 70) ∨
      (213.15 ≤ v ∧ v < 273.15) ∨ (323.15 < v ∧ v ≤ 343.15)) →
      classify_temperature_level v = .unusual) := by
  simp only [classify_temperature_level, NORMAL_MIN, NORMAL_MAX, UNUSUAL_MIN, UNUSUAL_MAX,
    KELVIN_NORMAL_MIN, KELVIN_NORMAL_MAX, KELVIN_UNUSUAL_MIN, KELVIN_UNUSUAL_MAX]
  constructor
  · rintro (⟨ha, hb⟩ | ⟨ha, hb⟩) <;> split_ifs with h1 h2 h3 h4 h5 <;>
      first
      | rfl
      | exact absurd ⟨by linarith, by linarith⟩ h2
      | exact absurd ⟨by linarith, by linarith⟩ h3
      | exact absurd ⟨by linarith, by linarith⟩ h4
      | exact absurd ⟨by linarith, by linarith⟩ h5
      | (exfalso; rcases h2 with ⟨hx, hy⟩; linarith)
      | (exfalso; rcases h3 with ⟨hx, hy⟩; linarith)
      | (exfalso; rcases h4 with ⟨hx, hy⟩; linarith)
      | (exfalso; rcases h5 with ⟨hx, hy⟩; linarith)
      | (exfalso; linarith)
  · rintro (⟨ha, hb⟩ | ⟨ha, hb⟩ | ⟨ha, hb⟩ | ⟨ha, hb⟩) <;> split_ifs with h1 h2 h3 h4 h5 <;>
      first
      | rfl
      | exact absurd ⟨by linarith, by linarith⟩ h2
      | exact absurd ⟨by linarith, by linarith⟩ h3
      | exact absurd ⟨by linarith, by linarith⟩ h4
      | exact absurd ⟨by linarith, by linarith⟩ h5
      | (exfalso; rcases h2 with ⟨hx, hy⟩; linarith)
      | (exfalso; rcases h3 with ⟨hx, hy⟩; linarith)
      | (exfalso; rcases h4 with ⟨hx, hy⟩; linarith)
      | (exfalso; rcases h5 with ⟨hx, hy⟩; linarith)
      | (exfalso; linarith)

/-- Witness for C4 at the concrete inputs 25, 300, -30 and 230. -/
theorem classify_normal_and_unusual_bands_witness :
    classify_temperature_level 25 = .normal ∧
    classify_temperature_level 300 = .normal ∧
    classify_temperature_level (-30) = .unusual ∧
    classify_temperature_level 230 = .unusual :=
  ⟨(classify_normal_and_unusual_bands 25).1 (Or.inl ⟨by norm_num, by norm_num⟩),
   (classify_normal_and_unusual_bands 300).1 (Or.inr ⟨by norm_num, by norm_num⟩),
   (classify_normal_and_unusual_bands (-30)).2 (Or.inl ⟨by norm_num, by norm_num⟩),
   (classify_normal_and_unusual_bands 230).2 (Or.inr (Or.inr (Or.inl ⟨by norm_num, by norm_num⟩)))⟩

/-- C3 counterexample: 80 lies inside the claimed Celsius sanity band
[-100, 100] and 200 lies inside the claimed Kelvin sanity band [150, 400],
yet classify returns Impossible for both. -/
theorem classify_impossible_inside_sanity_bands :
    classify_temperature_level 80 = .impossible ∧ ((-100 : ℚ) ≤ 80 ∧ (80 : ℚ) ≤ 100) ∧
    classify_temperature_level 200 = .impossible ∧ ((150 : ℚ) ≤ 200 ∧ (200 : ℚ) ≤ 400) := by
  refine ⟨?_, ⟨by norm_num, by norm_num⟩, ?_, ⟨by norm_num, by norm_num⟩⟩ <;>
    norm_num [classify_temperature_level, NORMAL_MIN, NORMAL_MAX, UNUSUAL_MIN, UNUSUAL_MAX,
      KELVIN_NORMAL_MIN, KELVIN_NORMAL_MAX, KELVIN_UNUSUAL_MIN, KELVIN_UNUSUAL_MAX]

/-- C3 amended: classify returns Impossible exactly outside the Unusual
band of the inferred unit, i.e. outside [-60, 70] in Celsius mode
(value at most 100) and outside [213.15, 343.15] in Kelvin mode
(value above 100); the [-100, 100] and [150, 400] sanity bands belong to
the band-mask, not to classify. -/
theorem classify_impossible_iff (v : ℚ) :
    (v ≤ 100 → (classify_temperature_level v = .impossible ↔ (v < -60 ∨ 70 < v))) ∧
    (100 < v → (classify_temperature_level v = .impossible ↔ (v < 213.15 ∨ 343.15 < v))) := by
  simp only [classify_temperature_level, NORMAL_MIN, NORMAL_MAX, UNUSUAL_MIN, UNUSUAL_MAX,
    KELVIN_NORMAL_MIN, KELVIN_NORMAL_MAX, KELVIN_UNUSUAL_MIN, KELVIN_UNUSUAL_MAX]
  constructor
  · intro hv
    rw [if_neg (by linarith : ¬(100 : ℚ) < v)]
    split_ifs with h2 h3
    · constructor
      · intro hh; exact absurd hh (by decide)
      · rintro (h | h) <;> (rcases h2 with ⟨hx, hy⟩; linarith)
    · constructor
      · intro hh; exact absurd hh (by decide)
      · rintro (h | h) <;> (rcases h3 with ⟨hx, hy⟩; linarith)
    · constructor
      · intro _
        rcases not_and_or.mp h3 with h | h
        · exact Or.inl (by linarith [not_le.mp h])
        · exact Or.inr (by linarith [not_le.mp h])
      · intro _; rfl
  · intro hv
    rw [if_pos hv]
    split_ifs with h2 h3
    · constructor
      · intro hh; exact absurd hh (by decide)
      · rintro (h | h) <;> (rcases h2 with ⟨hx, hy⟩; linarith)
    · constructor
      · intro hh; exact absurd hh (by decide)
      · rintro (h | h) <;> (rcases h3 with ⟨hx, hy⟩; linarith)
    · constructor
      · intro _
        rcases not_and_or.mp h3 with h | h
        · exact Or.inl (by linarith [not_le.mp h])
        · exact Or.inr (by linarith [not_le.mp h])
      · intro _; rfl

/-- Witness for C3 amended at the concrete inputs 80 (Celsius mode) and
500 (Kelvin mode). -/
theorem classify_impossible_iff_witness :
    classify_temperature_level 80 = .impossible ∧
    classify_temperature_level 500 = .impossible :=
  ⟨((classify_impossible_iff 80).1 (by norm_num)).mpr (Or.inr (by norm_num)),
   ((classify_impossible_iff 500).2 (by norm_num)).mpr (Or.inr (by norm_num))⟩

/-- C5 counterexample: 220 is Kelvin-mode Unusual with Celsius equivalent
-53.15 below zero, yet validate labels it "Extreme hot" because the
direction test compares the raw value with 0. -/
theorem validate_kelvin_cold_labelled_hot :
    validate_single_value ⟨none, 1, 0⟩ (.fin 220) =
      (true, .extremeHot (.fin 220), .unusual) ∧
    toCelsiusQ 220 < 0 := by
  constructor
  · norm_num [validate_single_value, nodataClose, classify_temperature_level,
      KELVIN_NORMAL_MIN, KELVIN_NORMAL_MAX, KELVIN_UNUSUAL_MIN, KELVIN_UNUSUAL_MAX]
  · norm_num [toCelsiusQ]

/-- C5 amended: whenever validate classifies a value as Unusual it is
usable, and the message is the "extreme cold" one exactly when the raw
value is below 0 (so Kelvin-mode Unusual values, all above 100, are always
labelled "extreme hot" even when their Celsius equivalent is negative). -/
theorem validate_unusual_usable_and_direction (vd : Validator) (v : FVal)
    (h : (validate_single_value vd v).2.2 = .unusual) :
    (validate_single_value vd v).1 = true ∧
    (msgIsCold (validate_single_value vd v).2.1 = true ↔ FVal.flt v (.fin 0) = true) := by
  by_cases hnc : nodataClose vd v = true
  · simp [validate_single_value, hnc] at h
  · cases v with
    | fin q =>
      rcases hcl : classify_temperature_level q with _ | _ | _ | _
      · simp [validate_single_value, hnc, hcl] at h
      · by_cases hq : q < 0
        · simp [validate_single_value, hnc, hcl, hq, msgIsCold, FVal.flt]
        · simp [validate_single_value, hnc, hcl, hq, msgIsCold, FVal.flt]
      · simp [validate_single_value, hnc, hcl] at h
      · simp [validate_single_value, hnc, hcl] at h
    | nan => simp [validate_single_value, hnc] at h
    | pinf => simp [validate_single_value, hnc] at h
    | ninf => simp [validate_single_value, hnc] at h

/-- Witness for C5 amended at the concrete Unusual input -10. -/
theorem validate_unusual_usable_and_direction_witness :
    (validate_single_value ⟨none, 1, 0⟩ (.fin (-10))).2.2 = .unusual ∧
    ((validate_single_value ⟨none, 1, 0⟩ (.fin (-10))).1 = true ∧
     (msgIsCold (validate_single_value ⟨none, 1, 0⟩ (.fin (-10))).2.1 = true ↔
      FVal.flt (.fin (-10)) (.fin 0) = true)) := by
  have h : (validate_single_value ⟨none, 1, 0⟩ (.fin (-10))).2.2 = .unusual := by
    norm_num [validate_single_value, nodataClose, classify_temperature_level,
      NORMAL_MIN, NORMAL_MAX, UNUSUAL_MIN, UNUSUAL_MAX]
  exact ⟨h, validate_unusual_usable_and_direction _ _ h⟩

/-- C2: the code is broken here.  As soon as a band has at least one valid
value, detect_temperature_unit reads the class attributes KELVIN_MIN and
KELVIN_MAX, which DataQualityValidator never defines, so the call raises
AttributeError instead of returning one of the five labels; the theorem
evaluates the model at two such inputs and states the general fact. -/
theorem detect_unit_raises_attribute_error :
    detect_temperature_unit ⟨none, 1, 0⟩ [.fin 25] =
      .error "AttributeError: no attribute KELVIN_MIN" ∧
    detect_temperature_unit ⟨some (-9999), 1, 0⟩ [.fin 300, .fin (-9999)] =
      .error "AttributeError: no attribute KELVIN_MIN" ∧
    ∀ (vd : Validator) (data : List FVal), (get_valid_data vd data).length ≠ 0 →
      detect_temperature_unit vd data = .error "AttributeError: no attribute KELVIN_MIN" := by
  refine ⟨?_, ?_, ?_⟩
  · simp +decide [detect_temperature_unit, get_valid_data, nodataClose, minQD, maxQD, meanQ,
      FVal.finPart, IMPOSSIBLE_MIN, IMPOSSIBLE_MAX, validatorClassAttr]
  · norm_num [detect_temperature_unit, get_valid_data, nodataClose, isclose01, minQD, maxQD,
      meanQ, FVal.finPart, validatorClassAttr, List.filterMap_cons, List.filter_cons]
    simp +decide
  · intro vd data hne
    have hattr : validatorClassAttr "KELVIN_MIN" = none := by simp [validatorClassAttr]
    simp only [detect_temperature_unit, hattr, if_neg hne]

/-- `celsiusEqR` unfolded, for folding the inlined sanity-check expression
of `interpGo`. -/
theorem celsiusEqR_def (x : ℝ) :
    celsiusEqR x = if (100 : ℝ) < x then x - 27315 / 100 else x := rfl

/-- On the C6 fixture the code's candidate pass at radius 1 keeps only the
three corner 30s: the 20.0101 corner falls within numpy-isclose distance
`0.01 + 1e-5 * 20` of the nodata sentinel 20. -/
theorem c6_cands : interpCandidates c6Validator c6Band 1 1 1 = [(30, 2), (30, 2), (30, 2)] := by
  norm_num [interpCandidates, ringOffsets, nodataClose, isclose01, c6Validator, c6Band, c6Pix,
    toCelsiusQ, NORMAL_MIN, NORMAL_MAX, List.range_succ, List.filterMap_cons]
  norm_num [show Int.toNat 2 = 2 from rfl, abs_le]

/-- On the C6 fixture the claim's candidate pass (absolute tolerance
exactly 0.01) additionally keeps the 20.0101 corner, since
`|20.0101 - 20| = 0.0101 > 0.01`. -/
theorem c6_claim_cands :
    claimCandidates c6Validator c6Band 1 1 1 =
      [(200101 / 10000, 2), (30, 2), (30, 2), (30, 2)] := by
  norm_num [claimCandidates, ringOffsets, isclose01abs, c6Validator, c6Band, c6Pix,
    toCelsiusQ, NORMAL_MIN, NORMAL_MAX, List.range_succ, List.filterMap_cons]
  rw [if_neg (by rw [abs_le]; push_neg; intro h; norm_num)]
  norm_num [show Int.toNat 2 = 2 from rfl, abs_le]

/-- The inverse-distance-weighted mean of three equidistant 30s is 30. -/
theorem c6_idw : idwValue [((30 : ℚ), 2), (30, 2), (30, 2)] = 30 := by
  rw [idwValue_const_dist _ 2 (by norm_num) (by intro p hp; fin_cases hp <;> rfl) (by simp)]
  norm_num

/-- The inverse-distance-weighted mean of the claim's four equidistant
candidates is `(20.0101 + 90) / 4 = 27.5025...`, not 30. -/
theorem c6_claim_idw :
    idwValue [((200101 / 10000 : ℚ), 2), (30, 2), (30, 2), (30, 2)] = 1100101 / 40000 := by
  rw [idwValue_const_dist _ 2 (by norm_num) (by intro p hp; fin_cases hp <;> rfl) (by simp)]
  norm_num

/-- On the C6 fixture the interpolation succeeds at radius 1 with value 30
over 3 neighbours. -/
theorem c6_eval : interpolate_from_neighbors c6Validator c6Band 1 1 1 = .success 30 3 1 := by
  unfold interpolate_from_neighbors
  rw [show List.range' 1 1 = [1] from rfl]
  unfold interpGo
  dsimp only
  rw [c6_cands]
  norm_num [c6_idw, NORMAL_MIN, NORMAL_MAX]

/-- Any successful result of the radius loop: its Celsius equivalent lies
in [0, 50], at least 3 neighbours were used, and the value is exactly the
inverse-distance-weighted mean of the code's surviving candidates at the
returned radius. -/
theorem interpGo_success_spec (vd : Validator) (b : Band) (row col : ℕ) :
    ∀ (radii : List ℕ) (v : ℝ) (n r : ℕ),
      interpGo vd b row col radii = .success v n r →
      (0 ≤ celsiusEqR v ∧ celsiusEqR v ≤ 50) ∧ 3 ≤ n ∧
      n = (interpCandidates vd b row col r).length ∧
      v = idwValue (interpCandidates vd b row col r) := by
  intro radii
  induction radii with
  | nil =>
    intro v n r h
    exact absurd h (by simp [interpGo])
  | cons radius rest ih =>
    intro v n r h
    unfold interpGo at h
    dsimp only at h
    rw [← celsiusEqR_def] at h
    split_ifs at h with h3 hbad
    · exact ih v n r h
    · injection h with hv hn hr
      subst hv; subst hn; subst hr
      push_neg at hbad
      refine ⟨⟨?_, ?_⟩, h3, rfl, rfl⟩
      · simpa [NORMAL_MIN] using hbad.1
      · simpa [NORMAL_MAX] using hbad.2
    · exact ih v n r h

/-- C6: whenever `interpolate_from_neighbors` returns success, the returned
value's Celsius equivalent lies within [0, 50], at least 3 neighbours were
used, and the value equals the inverse-distance-weighted mean of the
surviving neighbour candidates at the returned radius — where the
candidates are the in-bounds neighbours that are not numpy-isclose to the
nodata sentinel (tolerance `0.01 + 1e-5 * |nodata|`, not the claim's plain
0.01), are finite, and whose Celsius equivalent lies within [0, 50]. -/
theorem interpolate_success_in_normal_range (vd : Validator) (b : Band)
    (row col maxRadius : ℕ) (v : ℝ) (n r : ℕ)
    (h : interpolate_from_neighbors vd b row col maxRadius = .success v n r) :
    (0 ≤ celsiusEqR v ∧ celsiusEqR v ≤ 50) ∧ 3 ≤ n ∧
    n = (interpCandidates vd b row col r).length ∧
    v = idwValue (interpCandidates vd b row col r) :=
  interpGo_success_spec vd b row col _ v n r h

/-- C6 counterexample to the claimed candidate set: with nodata sentinel 20
and a neighbour 20.0101, the code's numpy-isclose test (absolute tolerance
0.01 plus relative tolerance 1e-5 of the sentinel) removes the neighbour
and the interpolation returns 30 over the three remaining corners, while
the claim's candidate set (plain 0.01 tolerance) keeps it, giving an
inverse-distance-weighted mean of 27.502525, not 30. -/
theorem interpolation_nodata_tolerance_counterexample :
    interpolate_from_neighbors c6Validator c6Band 1 1 1 = .success 30 3 1 ∧
    claimCandidates c6Validator c6Band 1 1 1 =
      [(200101 / 10000, 2), (30, 2), (30, 2), (30, 2)] ∧
    idwValue (claimCandidates c6Validator c6Band 1 1 1) ≠ 30 := by
  refine ⟨c6_eval, c6_claim_cands, ?_⟩
  rw [c6_claim_cands, c6_claim_idw]
  norm_num

/-- Concrete instantiation of the success characterisation at the C6
fixture. -/
theorem interpolate_success_in_normal_range_witness :
    (0 ≤ celsiusEqR 30 ∧ celsiusEqR 30 ≤ 50) ∧ 3 ≤ 3 ∧
    3 = (interpCandidates c6Validator c6Band 1 1 1).length ∧
    (30 : ℝ) = idwValue (interpCandidates c6Validator c6Band 1 1 1) :=
  interpolate_success_in_normal_range c6Validator c6Band 1 1 1 30 3 1 c6_eval

end GeoTIFF
